import Mathlib

/-!
Shallow embedding of the Unintend backend's Decision Reconciliation and
Conversation Lifecycle Engine (src/app/routers/interaction_routes.py,
chat_routes.py, feed_routes.py, application_routes.py, saves_routes.py,
src/app/models.py).

Tables are modelled as lists of rows; `db.query(...).first()` becomes
`List.find?`, SQL `IN (subquery)` becomes `List.any`, and the single
SQLAlchemy session's autoincrement ids are drawn from one global `next_id`
counter (ids are unique and monotone, which is all the code relies on).
`datetime.utcnow()` is the request-scoped clock `db.now`.  The session is
configured with `autoflush=False` (src/app/db.py), so in `send_message` the
read-cursor backfill seeds are computed over the messages that existed
before the new message.  An HTTP error aborts the request before
`db.commit()`, so an `Except.error` outcome leaves the database unchanged.
-/

namespace Unintend

inductive UserRole
  | STUDENT
  | COMPANY
deriving DecidableEq, Repr

inductive Decision
  | NONE
  | LIKE
  | PASS
deriving DecidableEq, Repr

inductive ApplicationStatus
  | PENDING
  | ACCEPTED
  | DECLINED
deriving DecidableEq, Repr

inductive MessageType
  | SYSTEM
  | USER
deriving DecidableEq, Repr

/-- Request-level decision: schemas.py restricts decisions to
`Literal["LIKE", "PASS"]`, so `NONE` can never arrive over the API. -/
inductive ReqDecision
  | LIKE
  | PASS
deriving DecidableEq, Repr

def ReqDecision.toDecision : ReqDecision → Decision
  | .LIKE => .LIKE
  | .PASS => .PASS

/-- Request status vocabulary of POST /applications/{id}/status:
schemas.py `SetApplicationStatusRequest.status` is
`Literal["ACCEPTED", "DECLINED", "LIKE", "PASS"]` (PENDING is rejected by
validation and never reaches the handler). -/
inductive ReqStatus
  | ACCEPTED
  | DECLINED
  | LIKE
  | PASS
deriving DecidableEq, Repr

structure InternshipPost where
  id : Nat
  company_user_id : Nat
  is_active : Bool
  created_at : Nat
deriving DecidableEq, Repr

structure StudentProfilePost where
  id : Nat
  student_user_id : Nat
  is_active : Bool
  created_at : Nat
  updated_at : Option Nat
deriving DecidableEq, Repr

structure StudentPostInteraction where
  id : Nat
  student_user_id : Nat
  post_id : Nat
  saved : Bool
  decision : Decision
  saved_at : Option Nat
  decided_at : Option Nat
deriving DecidableEq, Repr

structure CompanyStudentPostInteraction where
  id : Nat
  company_user_id : Nat
  student_post_id : Nat
  saved : Bool
  decision : Decision
  saved_at : Option Nat
  decided_at : Option Nat
deriving DecidableEq, Repr

structure Application where
  id : Nat
  post_id : Nat
  student_user_id : Nat
  company_user_id : Nat
  status : ApplicationStatus
  created_at : Nat
  updated_at : Nat
deriving DecidableEq, Repr

structure Conversation where
  id : Nat
  application_id : Nat
deriving DecidableEq, Repr

structure ConversationParticipant where
  id : Nat
  conversation_id : Nat
  user_id : Nat
  last_read_message_id : Option Nat
  updated_at : Nat
deriving DecidableEq, Repr

structure Message where
  id : Nat
  conversation_id : Nat
  type : MessageType
  sender_user_id : Option Nat
  text : String
  created_at : Nat
deriving DecidableEq, Repr

structure DB where
  posts : List InternshipPost
  student_posts : List StudentProfilePost
  spi : List StudentPostInteraction
  cspi : List CompanyStudentPostInteraction
  apps : List Application
  convs : List Conversation
  parts : List ConversationParticipant
  msgs : List Message
  next_id : Nat
  now : Nat
deriving DecidableEq, Repr

/-- An HTTPException: status code plus detail string. -/
structure Http where
  status : Nat
  detail : String
deriving DecidableEq, Repr

def PENDING_TEXT : String := "Message still pending"
def ACCEPTED_TEXT : String := "Ready to connect?"
def DECLINED_TEXT : String := "Unfortunately this was not a match, keep searching!"

/-! ## Decision Ledger primitives (interaction_routes.py, saves_routes.py) -/

/-- `ensure_student_interaction_row`: get-or-create the unique
(student, post) ledger row with default NONE/unsaved state. -/
def ensure_student_interaction_row (db : DB) (student_user_id post_id : Nat) : DB :=
  match db.spi.find? (fun r => decide (r.student_user_id = student_user_id ∧ r.post_id = post_id)) with
  | some _ => db
  | none =>
    { db with
        spi := db.spi ++ [⟨db.next_id, student_user_id, post_id, false, Decision.NONE, none, none⟩],
        next_id := db.next_id + 1 }

/-- `ensure_company_studentpost_interaction`: get-or-create the unique
(company, student-post) ledger row. -/
def ensure_company_studentpost_interaction (db : DB) (company_user_id student_post_id : Nat) : DB :=
  match db.cspi.find? (fun r => decide (r.company_user_id = company_user_id ∧ r.student_post_id = student_post_id)) with
  | some _ => db
  | none =>
    { db with
        cspi := db.cspi ++ [⟨db.next_id, company_user_id, student_post_id, false, Decision.NONE, none, none⟩],
        next_id := db.next_id + 1 }

/-- `row.decision = ...; row.decided_at = ...` on the first matching
student ledger row (unique by constraint `uq_student_post`). -/
def set_student_decision_rows :
    List StudentPostInteraction → Nat → Nat → Decision → Nat → List StudentPostInteraction
  | [], _, _, _, _ => []
  | r :: rest, sid, pid, d, t =>
    if r.student_user_id = sid ∧ r.post_id = pid then
      { r with decision := d, decided_at := some t } :: rest
    else r :: set_student_decision_rows rest sid pid d t

/-- `row.saved = ...; row.saved_at = ...` on the first matching student
ledger row. -/
def set_student_saved_rows :
    List StudentPostInteraction → Nat → Nat → Bool → Option Nat → List StudentPostInteraction
  | [], _, _, _, _ => []
  | r :: rest, sid, pid, sv, t =>
    if r.student_user_id = sid ∧ r.post_id = pid then
      { r with saved := sv, saved_at := t } :: rest
    else r :: set_student_saved_rows rest sid pid sv t

/-- `row.decision = ...; row.decided_at = ...` on the first matching
company ledger row (unique by constraint `uq_company_student_post`). -/
def set_company_decision_rows :
    List CompanyStudentPostInteraction → Nat → Nat → Decision → Nat → List CompanyStudentPostInteraction
  | [], _, _, _, _ => []
  | r :: rest, cid, spid, d, t =>
    if r.company_user_id = cid ∧ r.student_post_id = spid then
      { r with decision := d, decided_at := some t } :: rest
    else r :: set_company_decision_rows rest cid spid d t

/-! ## Reconciliation engine (interaction_routes.py) -/

/-- `create_application_and_conversation_if_needed`: if an Application for
(post, student) exists return it unchanged; otherwise create the
Application, its Conversation, the status-appropriate seed SYSTEM message,
and both participants' read cursors pointing at that seed message. -/
def create_application_and_conversation_if_needed
    (db : DB) (student_id : Nat) (post : InternshipPost)
    (initial_status : ApplicationStatus) : DB × Application :=
  match db.apps.find? (fun a => decide (a.post_id = post.id ∧ a.student_user_id = student_id)) with
  | some a => (db, a)
  | none =>
    let system_text :=
      if initial_status = ApplicationStatus.PENDING then PENDING_TEXT
      else if initial_status = ApplicationStatus.ACCEPTED then ACCEPTED_TEXT
      else DECLINED_TEXT
    let app : Application :=
      ⟨db.next_id, post.id, student_id, post.company_user_id, initial_status, db.now, db.now⟩
    let conv : Conversation := ⟨db.next_id + 1, app.id⟩
    let msg : Message := ⟨db.next_id + 2, conv.id, MessageType.SYSTEM, none, system_text, db.now⟩
    let part1 : ConversationParticipant := ⟨db.next_id + 3, conv.id, student_id, some msg.id, db.now⟩
    let part2 : ConversationParticipant := ⟨db.next_id + 4, conv.id, post.company_user_id, some msg.id, db.now⟩
    ({ db with
        apps := db.apps ++ [app],
        convs := db.convs ++ [conv],
        msgs := db.msgs ++ [msg],
        parts := db.parts ++ [part1, part2],
        next_id := db.next_id + 5 }, app)

/-- `_company_has_passed_student`: the student's (first) ProfileCard has a
PASS decision row from this company. -/
def companyHasPassedStudent (db : DB) (company_user_id student_user_id : Nat) : Bool :=
  match db.student_posts.find? (fun sp => decide (sp.student_user_id = student_user_id)) with
  | none => false
  | some sp =>
    db.cspi.any (fun r =>
      decide (r.company_user_id = company_user_id ∧ r.student_post_id = sp.id ∧
        r.decision = Decision.PASS))

/-- Ordering used by `_latest_company_post_student_passed`:
`decided_at DESC NULLS LAST, id DESC`.  `spiLater a b` means a sorts
strictly before b. -/
def spiLater (a b : StudentPostInteraction) : Bool :=
  match a.decided_at, b.decided_at with
  | some x, some y => decide (y < x) || (decide (x = y) && decide (b.id < a.id))
  | some _, none => true
  | none, some _ => false
  | none, none => decide (b.id < a.id)

/-- `ORDER BY ... LIMIT 1`: the row that sorts first under `later`
(keeping the earlier list element on ties, matching a stable scan). -/
def pickBest {α : Type} (later : α → α → Bool) (l : List α) : Option α :=
  l.foldl
    (fun acc r =>
      match acc with
      | none => some r
      | some b => if later r b then some r else some b)
    none

/-- `_latest_company_post_student_passed`: the most recently PASSed
InternshipPost of this company among the student's PASS rows. -/
def latest_company_post_student_passed
    (db : DB) (company_user_id student_user_id : Nat) : Option InternshipPost :=
  let rows := db.spi.filter (fun r =>
    decide (r.student_user_id = student_user_id ∧ r.decision = Decision.PASS) &&
    db.posts.any (fun p => decide (p.id = r.post_id ∧ p.company_user_id = company_user_id)))
  match pickBest spiLater rows with
  | none => none
  | some row => db.posts.find? (fun p => decide (p.id = row.post_id))

/-- Ordering used on the PENDING-Application lookup:
`ORDER BY updated_at DESC`. -/
def appLaterUpdated (a b : Application) : Bool :=
  decide (b.updated_at < a.updated_at)

/-- `app.status = new_status; app.updated_at = utcnow()` on the first
Application row with the given primary key. -/
def update_application_rows :
    List Application → Nat → ApplicationStatus → Nat → List Application
  | [], _, _, _ => []
  | a :: rest, aid, st, t =>
    if a.id = aid then { a with status := st, updated_at := t } :: rest
    else a :: update_application_rows rest aid st t

/-- `db.add(Message(type=SYSTEM, sender=None, text=...))`. -/
def add_system_message (db : DB) (conv_id : Nat) (text : String) : DB :=
  { db with
      msgs := db.msgs ++ [⟨db.next_id, conv_id, MessageType.SYSTEM, none, text, db.now⟩],
      next_id := db.next_id + 1 }

/-- `_update_pending_application_status_for_company_student_if_any`. -/
def update_pending_application_status_for_company_student_if_any
    (db : DB) (company_user_id student_user_id : Nat) (decision : Decision) : DB :=
  if decision ≠ Decision.LIKE ∧ decision ≠ Decision.PASS then db
  else
    let pendings := db.apps.filter (fun a =>
      decide (a.company_user_id = company_user_id ∧ a.student_user_id = student_user_id ∧
        a.status = ApplicationStatus.PENDING))
    match pickBest appLaterUpdated pendings with
    | none =>
      match latest_company_post_student_passed db company_user_id student_user_id with
      | none => db
      | some passed_post =>
        (create_application_and_conversation_if_needed db student_user_id passed_post
          ApplicationStatus.DECLINED).1
    | some app =>
      let new_status :=
        if decision = Decision.LIKE then ApplicationStatus.ACCEPTED else ApplicationStatus.DECLINED
      if app.status = new_status then db
      else
        let db1 := { db with apps := update_application_rows db.apps app.id new_status db.now }
        match db.convs.find? (fun c => decide (c.application_id = app.id)) with
        | none => db1
        | some conv =>
          add_system_message db1 conv.id
            (if new_status = ApplicationStatus.ACCEPTED then ACCEPTED_TEXT else DECLINED_TEXT)

/-! ## Decision routes (interaction_routes.py) -/

/-- The two ledger-write lines of `student_decision_post`:
`row = ensure_student_interaction_row(...); row.decision = ...;
row.decided_at = utcnow()`. -/
def record_student_decision (db : DB) (student_id post_id : Nat) (d : Decision) : DB :=
  let db1 := ensure_student_interaction_row db student_id post_id
  { db1 with spi := set_student_decision_rows db1.spi student_id post_id d db1.now }

/-- The two ledger-write lines of the company decision handlers. -/
def record_company_decision (db : DB) (company_id student_post_id : Nat) (d : Decision) : DB :=
  let db1 := ensure_company_studentpost_interaction db company_id student_post_id
  { db1 with cspi := set_company_decision_rows db1.cspi company_id student_post_id d db1.now }

/-- POST /decisions/student/post (`student_decision_post`). -/
def student_decision_post (db : DB) (current_id : Nat) (current_role : UserRole)
    (postId : Nat) (decision : ReqDecision) : Except Http DB :=
  if current_role ≠ UserRole.STUDENT then
    .error ⟨403, "Only students can decide on posts"⟩
  else
    match db.posts.find? (fun p => decide (p.id = postId)) with
    | none => .error ⟨404, "Post not found"⟩
    | some post =>
      if post.is_active = false then .error ⟨404, "Post not found"⟩
      else
        let db2 := record_student_decision db current_id post.id decision.toDecision
        let db3 :=
          if companyHasPassedStudent db2 post.company_user_id current_id then
            (create_application_and_conversation_if_needed db2 current_id post
              ApplicationStatus.DECLINED).1
          else if decision.toDecision = Decision.LIKE then
            (create_application_and_conversation_if_needed db2 current_id post
              ApplicationStatus.ACCEPTED).1
          else db2
        .ok db3

/-- POST /decisions/company/student-post (`company_decision_student_post`). -/
def company_decision_student_post (db : DB) (current_id : Nat) (current_role : UserRole)
    (studentPostId : Nat) (decision : ReqDecision) : Except Http DB :=
  if current_role ≠ UserRole.COMPANY then
    .error ⟨403, "Only companies can decide on student posts"⟩
  else
    match db.student_posts.find? (fun sp => decide (sp.id = studentPostId)) with
    | none => .error ⟨404, "Student post not found"⟩
    | some spost =>
      if spost.is_active = false then .error ⟨404, "Student post not found"⟩
      else
        let db2 := record_company_decision db current_id spost.id decision.toDecision
        .ok (update_pending_application_status_for_company_student_if_any db2 current_id
          spost.student_user_id decision.toDecision)

/-! ## Application status route (application_routes.py) -/

def status_to_system_text (status : ApplicationStatus) : String :=
  if status = ApplicationStatus.PENDING then PENDING_TEXT
  else if status = ApplicationStatus.ACCEPTED then ACCEPTED_TEXT
  else DECLINED_TEXT

/-- Mapping applied by `set_application_status`: clients may send the
LIKE/PASS shorthand. -/
def ReqStatus.toStatus : ReqStatus → ApplicationStatus
  | .LIKE => .ACCEPTED
  | .PASS => .DECLINED
  | .ACCEPTED => .ACCEPTED
  | .DECLINED => .DECLINED

/-- POST /applications/{id}/status (`set_application_status`). -/
def set_application_status (db : DB) (current_id : Nat) (current_role : UserRole)
    (application_id : Nat) (req : ReqStatus) : Except Http DB :=
  match db.apps.find? (fun a => decide (a.id = application_id)) with
  | none => .error ⟨404, "Application not found"⟩
  | some app =>
    if current_role ≠ UserRole.COMPANY ∨ app.company_user_id ≠ current_id then
      .error ⟨403, "Only the owning company can update status"⟩
    else
      let new_status := req.toStatus
      if app.status = new_status then .ok db
      else
        let db1 := { db with apps := update_application_rows db.apps app.id new_status db.now }
        match db.convs.find? (fun c => decide (c.application_id = app.id)) with
        | none => .error ⟨500, "Conversation missing"⟩
        | some conv => .ok (add_system_message db1 conv.id (status_to_system_text new_status))

/-! ## Chat routes (chat_routes.py) -/

def can_access_conversation (db : DB) (conv_id user_id : Nat) : Bool :=
  match db.convs.find? (fun c => decide (c.id = conv_id)) with
  | none => false
  | some conv =>
    match db.apps.find? (fun a => decide (a.id = conv.application_id)) with
    | none => false
    | some app => decide (app.student_user_id = user_id ∨ app.company_user_id = user_id)

/-- `SELECT max(messages.id) WHERE conversation_id = ...` (None if no rows). -/
def max_message_id (db : DB) (conversation_id : Nat) : Option Nat :=
  (db.msgs.filter (fun m => decide (m.conversation_id = conversation_id))).foldl
    (fun acc m =>
      match acc with
      | none => some m.id
      | some x => some (max x m.id))
    none

/-- `_ensure_participant`: get-or-create the (conversation, user) read
cursor row, optionally seeded to the conversation's current latest
message id. -/
def ensure_participant (db : DB) (conversation_id user_id : Nat)
    (seed_last_read_to_last_message : Bool) : DB :=
  match db.parts.find? (fun r => decide (r.conversation_id = conversation_id ∧ r.user_id = user_id)) with
  | some _ => db
  | none =>
    let last_msg_id :=
      if seed_last_read_to_last_message then max_message_id db conversation_id else none
    { db with
        parts := db.parts ++ [⟨db.next_id, conversation_id, user_id, last_msg_id, db.now⟩],
        next_id := db.next_id + 1 }

/-- Set `last_read_message_id`/`updated_at` on the first matching
participant row (unique by constraint `uq_conversation_user`). -/
def set_participant_cursor_rows :
    List ConversationParticipant → Nat → Nat → Nat → Nat → List ConversationParticipant
  | [], _, _, _, _ => []
  | r :: rest, cid, uid, mid, t =>
    if r.conversation_id = cid ∧ r.user_id = uid then
      { r with last_read_message_id := some mid, updated_at := t } :: rest
    else r :: set_participant_cursor_rows rest cid uid mid t

/-- `_unread_count`: messages of the conversation with id above the cursor
(None treated as 0), sent by somebody else (SYSTEM messages excluded by
`sender_user_id IS NOT NULL`). -/
def unread_count (db : DB) (conversation_id user_id : Nat)
    (last_read_message_id : Option Nat) : Nat :=
  let threshold :=
    match last_read_message_id with
    | none => 0
    | some x => x
  (db.msgs.filter (fun m =>
    decide (m.conversation_id = conversation_id) &&
    decide (threshold < m.id) &&
    (match m.sender_user_id with
     | none => false
     | some s => decide (s ≠ user_id)))).length

def participant_row (db : DB) (conversation_id user_id : Nat) :
    Option ConversationParticipant :=
  db.parts.find? (fun r => decide (r.conversation_id = conversation_id ∧ r.user_id = user_id))

/-- POST /conversations/{id}/messages (`send_message`). -/
def send_message (db : DB) (current_id conversation_id : Nat) (text : String) :
    Except Http (DB × Message) :=
  match db.convs.find? (fun c => decide (c.id = conversation_id)) with
  | none => .error ⟨404, "Conversation not found"⟩
  | some conv =>
    match db.apps.find? (fun a => decide (a.id = conv.application_id)) with
    | none => .error ⟨500, "Application missing"⟩
    | some app =>
      if ¬ (app.student_user_id = current_id ∨ app.company_user_id = current_id) then
        .error ⟨403, "No access"⟩
      else if app.status = ApplicationStatus.DECLINED then
        .error ⟨400, "Conversation declined"⟩
      else
        let db1 := ensure_participant db conversation_id current_id true
        let other_id :=
          if app.student_user_id = current_id then app.company_user_id else app.student_user_id
        let db2 := ensure_participant db1 conversation_id other_id true
        let msg : Message :=
          ⟨db2.next_id, conversation_id, MessageType.USER, some current_id, text, db2.now⟩
        let db3 := { db2 with msgs := db2.msgs ++ [msg], next_id := db2.next_id + 1 }
        let db4 := { db3 with
          parts := set_participant_cursor_rows db3.parts conversation_id current_id msg.id db3.now }
        .ok (db4, msg)

structure MarkConversationReadResponse where
  conversationId : Nat
  unreadCount : Nat
  lastReadMessageId : Option Nat
deriving DecidableEq, Repr

/-- POST /conversations/{id}/read (`mark_conversation_read`). -/
def mark_conversation_read (db : DB) (current_id conversation_id : Nat)
    (lastReadMessageId : Option Nat) : Except Http (DB × MarkConversationReadResponse) :=
  if can_access_conversation db conversation_id current_id = false then
    .error ⟨403, "No access"⟩
  else
    let db1 := ensure_participant db conversation_id current_id false
    let target : Except Http (Option Nat) :=
      match lastReadMessageId with
      | some req_id =>
        match db1.msgs.find? (fun m => decide (m.id = req_id)) with
        | none => .error ⟨400, "Invalid lastReadMessageId"⟩
        | some m =>
          if m.conversation_id ≠ conversation_id then .error ⟨400, "Invalid lastReadMessageId"⟩
          else .ok (some m.id)
      | none => .ok (max_message_id db1 conversation_id)
    match target with
    | .error e => .error e
    | .ok none =>
      .ok (db1, ⟨conversation_id, 0,
        ((participant_row db1 conversation_id current_id).bind (fun r => r.last_read_message_id))⟩)
    | .ok (some tid) =>
      let db2 := { db1 with
        parts := set_participant_cursor_rows db1.parts conversation_id current_id tid db1.now }
      .ok (db2, ⟨conversation_id, 0, some tid⟩)

/-! ## Saves route (saves_routes.py) -/

/-- POST /saves/student/post (`set_saved_post_for_student`).  Note: the
handler checks only `if not post`, not `post.is_active`. -/
def set_saved_post_for_student (db : DB) (current_id : Nat) (current_role : UserRole)
    (postId : Nat) (saved : Bool) : Except Http DB :=
  if current_role ≠ UserRole.STUDENT then
    .error ⟨403, "Only students can save posts"⟩
  else
    match db.posts.find? (fun p => decide (p.id = postId)) with
    | none => .error ⟨404, "Post not found"⟩
    | some post =>
      let db1 := ensure_student_interaction_row db current_id post.id
      .ok { db1 with
        spi := set_student_saved_rows db1.spi current_id post.id saved
          (if saved then some db1.now else none) }

/-! ## Feed visibility (feed_routes.py) -/

/-- The student-feed exclusion subquery: an interaction row of this
student on this post exists whose decision is PASS or whose post has a
non-PENDING Application of this student. -/
def student_feed_excluded (db : DB) (student_id : Nat) (p : InternshipPost) : Bool :=
  db.spi.any (fun r =>
    decide (r.student_user_id = student_id ∧ r.post_id = p.id) &&
    (decide (r.decision = Decision.PASS) ||
     db.apps.any (fun a =>
       decide (a.student_user_id = student_id ∧ a.status ≠ ApplicationStatus.PENDING ∧
         a.post_id = p.id))))

/-- Membership of a post in GET /feed/student (`student_feed`) for the
given student: the query's WHERE clause (`is_active` and not excluded),
before the department filter / ordering / LIMIT 50 pagination. -/
def student_feed_visible (db : DB) (student_id : Nat) (p : InternshipPost) : Bool :=
  p.is_active && !(student_feed_excluded db student_id p)

/-- `coalesce(StudentProfilePost.updated_at, StudentProfilePost.created_at)`. -/
def card_freshness (sp : StudentProfilePost) : Nat :=
  match sp.updated_at with
  | some t => t
  | none => sp.created_at

/-- The company-feed `decided` exclusion subquery: a decision row of this
company on this card such that either the decision is PASS still current
relative to the card's freshness timestamp (SQL `coalesce(...) <=
decided_at` — false when `decided_at` is NULL), or the decision is a
non-PASS decision (LIKE) and the card's student has made any decision. -/
def company_feed_hidden (db : DB) (company_id : Nat) (sp : StudentProfilePost) : Bool :=
  db.cspi.any (fun r =>
    decide (r.company_user_id = company_id ∧ r.student_post_id = sp.id) &&
    ((decide (r.decision = Decision.PASS) &&
      db.student_posts.any (fun sp2 =>
        decide (sp2.id = r.student_post_id) &&
        (match r.decided_at with
         | none => false
         | some t => decide (card_freshness sp2 ≤ t))))
     ||
     (decide (r.decision ≠ Decision.NONE ∧ r.decision ≠ Decision.PASS) &&
      db.student_posts.any (fun sp2 =>
        decide (sp2.id = r.student_post_id) &&
        db.spi.any (fun srow =>
          decide (srow.decision ≠ Decision.NONE ∧ srow.student_user_id = sp2.student_user_id))))))

/-- Membership of a ProfileCard in GET /feed/company (`company_feed`) for
the given company: the query's WHERE clause (`is_active` and not hidden),
before the department filter / ordering / LIMIT 50 pagination. -/
def company_feed_visible (db : DB) (company_id : Nat) (sp : StudentProfilePost) : Bool :=
  sp.is_active && !(company_feed_hidden db company_id sp)

/-! ## Derived observations used by the claims -/

/-- All Application rows for (post, student). -/
def appsFor (db : DB) (post_id student_id : Nat) : List Application :=
  db.apps.filter (fun a => decide (a.post_id = post_id ∧ a.student_user_id = student_id))

/-- All Conversation rows of an Application. -/
def convsForApp (db : DB) (application_id : Nat) : List Conversation :=
  db.convs.filter (fun c => decide (c.application_id = application_id))

/-- All messages of a conversation. -/
def msgsInConv (db : DB) (conversation_id : Nat) : List Message :=
  db.msgs.filter (fun m => decide (m.conversation_id = conversation_id))

/-- Id-freshness well-formedness: every row id and every foreign key is
below the allocator `next_id`.  True of any database produced from the
empty one by the modelled operations. -/
def wf (db : DB) : Prop :=
  (∀ p ∈ db.posts, p.id < db.next_id) ∧
  (∀ sp ∈ db.student_posts, sp.id < db.next_id) ∧
  (∀ r ∈ db.spi, r.id < db.next_id) ∧
  (∀ r ∈ db.cspi, r.id < db.next_id) ∧
  (∀ a ∈ db.apps, a.id < db.next_id) ∧
  (∀ c ∈ db.convs, c.id < db.next_id ∧ c.application_id < db.next_id) ∧
  (∀ r ∈ db.parts, r.id < db.next_id ∧ r.conversation_id < db.next_id) ∧
  (∀ m ∈ db.msgs, m.id < db.next_id ∧ m.conversation_id < db.next_id)

instance (db : DB) : Decidable (wf db) := by
  unfold wf
  exact inferInstance

/-- Reachability invariant: every Application has a matching student
interaction row (the decision routes always upsert the ledger row before
the reconciliation engine may create an Application). -/
def app_ledger_invariant (db : DB) : Prop :=
  ∀ a ∈ db.apps, ∃ r ∈ db.spi,
    r.student_user_id = a.student_user_id ∧ r.post_id = a.post_id

instance (db : DB) : Decidable (app_ledger_invariant db) := by
  unfold app_ledger_invariant
  exact inferInstance

/-! ## Concrete databases used by witnesses and counterexamples -/

/-- One active post (id 1) owned by company 100; nothing else. -/
def dbC1 : DB :=
  { posts := [⟨1, 100, true, 0⟩], student_posts := [], spi := [], cspi := [],
    apps := [], convs := [], parts := [], msgs := [], next_id := 2, now := 7 }

/-- Company 100 has PASSed student 200's card (id 2), and an ACCEPTED
Application (id 4) for post 1 and student 200 already exists (created by
an earlier student LIKE, before the company's PASS). -/
def dbC2 : DB :=
  { posts := [⟨1, 100, true, 0⟩],
    student_posts := [⟨2, 200, true, 0, none⟩],
    spi := [⟨7, 200, 1, false, Decision.LIKE, none, some 0⟩],
    cspi := [⟨3, 100, 2, false, Decision.PASS, none, some 1⟩],
    apps := [⟨4, 1, 200, 100, ApplicationStatus.ACCEPTED, 0, 0⟩],
    convs := [⟨5, 4⟩],
    parts := [],
    msgs := [⟨6, 5, MessageType.SYSTEM, none, ACCEPTED_TEXT, 0⟩],
    next_id := 8, now := 9 }

/-- Company 100 and student 200: the student PASSed post 1 (no Application
for it), while a PENDING Application (id 4) exists on post 2; the company
has not decided yet.  Applying the same company LIKE twice from here is
not idempotent: the first call transitions the PENDING Application, the
second call creates a new DECLINED Application for the PASSed post 1. -/
def dbC4 : DB :=
  { posts := [⟨1, 100, true, 0⟩, ⟨2, 100, true, 0⟩],
    student_posts := [⟨3, 200, true, 0, none⟩],
    spi := [⟨6, 200, 1, false, Decision.PASS, none, some 2⟩],
    cspi := [],
    apps := [⟨4, 2, 200, 100, ApplicationStatus.PENDING, 0, 0⟩],
    convs := [⟨5, 4⟩],
    parts := [],
    msgs := [⟨7, 5, MessageType.SYSTEM, none, PENDING_TEXT, 0⟩],
    next_id := 8, now := 9 }

/-- A settled state for the same pair: the company has LIKEd card 3, the
student's PASSed post 1 already carries a DECLINED Application, and no
PENDING Application remains — from here the company decision is a no-op. -/
def dbC4b : DB :=
  { posts := [⟨1, 100, true, 0⟩],
    student_posts := [⟨3, 200, true, 0, none⟩],
    spi := [⟨6, 200, 1, false, Decision.PASS, none, some 2⟩],
    cspi := [⟨8, 100, 3, false, Decision.LIKE, none, some 9⟩],
    apps := [⟨10, 1, 200, 100, ApplicationStatus.DECLINED, 9, 9⟩],
    convs := [⟨11, 10⟩],
    parts := [⟨13, 11, 200, some 12, 9⟩, ⟨14, 11, 100, some 12, 9⟩],
    msgs := [⟨12, 11, MessageType.SYSTEM, none, DECLINED_TEXT, 9⟩],
    next_id := 15, now := 9 }

/-- Conversation 5 of ACCEPTED Application 4 with three messages: the
SYSTEM seed (id 6) and two company messages (ids 7 and 8); student 200's
cursor is at the latest message. -/
def dbC10 : DB :=
  { posts := [⟨1, 100, true, 0⟩],
    student_posts := [],
    spi := [⟨7, 200, 1, false, Decision.LIKE, none, some 0⟩],
    cspi := [],
    apps := [⟨4, 1, 200, 100, ApplicationStatus.ACCEPTED, 0, 0⟩],
    convs := [⟨5, 4⟩],
    parts := [⟨9, 5, 200, some 8, 2⟩],
    msgs := [⟨6, 5, MessageType.SYSTEM, none, ACCEPTED_TEXT, 0⟩,
             ⟨7, 5, MessageType.USER, some 100, "hello", 1⟩,
             ⟨8, 5, MessageType.USER, some 100, "again", 2⟩],
    next_id := 10, now := 3 }

/-- One inactive post (id 1, soft-deleted) owned by company 100. -/
def dbC9 : DB :=
  { posts := [⟨1, 100, false, 0⟩], student_posts := [], spi := [], cspi := [],
    apps := [], convs := [], parts := [], msgs := [], next_id := 2, now := 7 }

/-! ## General helper lemmas -/

theorem find?_append_of_none {α : Type} {l1 l2 : List α} {p : α → Bool}
    (h : l1.find? p = none) : (l1 ++ l2).find? p = l2.find? p := by
  rw [List.find?_append, h, Option.none_or]

/-! ## Frame lemmas for the ledger-write primitives -/

theorem record_student_decision_frame (db : DB) (s pid : Nat) (d : Decision) :
    (record_student_decision db s pid d).posts = db.posts ∧
    (record_student_decision db s pid d).student_posts = db.student_posts ∧
    (record_student_decision db s pid d).cspi = db.cspi ∧
    (record_student_decision db s pid d).apps = db.apps ∧
    (record_student_decision db s pid d).convs = db.convs ∧
    (record_student_decision db s pid d).parts = db.parts ∧
    (record_student_decision db s pid d).msgs = db.msgs ∧
    (record_student_decision db s pid d).now = db.now ∧
    db.next_id ≤ (record_student_decision db s pid d).next_id := by
  unfold record_student_decision ensure_student_interaction_row
  cases db.spi.find? (fun r => decide (r.student_user_id = s ∧ r.post_id = pid)) <;>
    simp

theorem record_company_decision_frame (db : DB) (c spid : Nat) (d : Decision) :
    (record_company_decision db c spid d).posts = db.posts ∧
    (record_company_decision db c spid d).student_posts = db.student_posts ∧
    (record_company_decision db c spid d).spi = db.spi ∧
    (record_company_decision db c spid d).apps = db.apps ∧
    (record_company_decision db c spid d).convs = db.convs ∧
    (record_company_decision db c spid d).parts = db.parts ∧
    (record_company_decision db c spid d).msgs = db.msgs ∧
    (record_company_decision db c spid d).now = db.now ∧
    db.next_id ≤ (record_company_decision db c spid d).next_id := by
  unfold record_company_decision ensure_company_studentpost_interaction
  cases db.cspi.find? (fun r => decide (r.company_user_id = c ∧ r.student_post_id = spid)) <;>
    simp

/-! ## Congruence lemmas for read-only queries -/

theorem companyHasPassedStudent_congr {db db' : DB} (c s : Nat)
    (h1 : db'.student_posts = db.student_posts) (h2 : db'.cspi = db.cspi) :
    companyHasPassedStudent db' c s = companyHasPassedStudent db c s := by
  unfold companyHasPassedStudent
  rw [h1, h2]

theorem latest_passed_congr {db db' : DB} (c s : Nat)
    (h1 : db'.spi = db.spi) (h2 : db'.posts = db.posts) :
    latest_company_post_student_passed db' c s = latest_company_post_student_passed db c s := by
  unfold latest_company_post_student_passed
  rw [h1, h2]

/-! ## Lemmas about pickBest and the row-update primitives -/

theorem pickBest_go_mem {α : Type} (later : α → α → Bool) :
    ∀ (l : List α) (acc : Option α) (x : α),
      l.foldl
        (fun acc r =>
          match acc with
          | none => some r
          | some b => if later r b then some r else some b) acc = some x →
      acc = some x ∨ x ∈ l := by
  intro l
  induction l with
  | nil =>
    intro acc x h
    exact Or.inl h
  | cons r rest ih =>
    intro acc x h
    rw [List.foldl_cons] at h
    rcases ih _ x h with h' | h'
    · cases acc with
      | none =>
        simp only [Option.some.injEq] at h'
        exact Or.inr (h' ▸ List.mem_cons_self r rest)
      | some b =>
        by_cases hb : later r b
        · simp only [hb, if_true, Option.some.injEq] at h'
          exact Or.inr (h' ▸ List.mem_cons_self r rest)
        · simp only [hb, if_false, Bool.false_eq_true] at h'
          exact Or.inl h'
    · exact Or.inr (List.mem_cons_of_mem r h')

theorem pickBest_mem {α : Type} (later : α → α → Bool) (l : List α) (x : α)
    (h : pickBest later l = some x) : x ∈ l := by
  rcases pickBest_go_mem later l none x h with h' | h'
  · cases h'
  · exact h'

theorem update_application_rows_mem (aid : Nat) (st : ApplicationStatus) (t : Nat) :
    ∀ (l : List Application), ∀ a' ∈ update_application_rows l aid st t,
      a' ∈ l ∨ ∃ a ∈ l, a.id = aid ∧ a' = { a with status := st, updated_at := t } := by
  intro l
  induction l with
  | nil =>
    intro a' h
    simp [update_application_rows] at h
  | cons r rest ih =>
    intro a' h
    by_cases hr : r.id = aid
    · rw [update_application_rows, if_pos hr] at h
      rcases List.mem_cons.mp h with h' | h'
      · exact Or.inr ⟨r, List.mem_cons_self r rest, hr, h'⟩
      · exact Or.inl (List.mem_cons_of_mem r h')
    · rw [update_application_rows, if_neg hr] at h
      rcases List.mem_cons.mp h with h' | h'
      · exact Or.inl (h' ▸ List.mem_cons_self r rest)
      · rcases ih a' h' with h'' | ⟨a, ha, haid, heq⟩
        · exact Or.inl (List.mem_cons_of_mem r h'')
        · exact Or.inr ⟨a, List.mem_cons_of_mem r ha, haid, heq⟩

theorem update_application_rows_nodup :
    ∀ (l : List Application) (app : Application) (st : ApplicationStatus) (t : Nat),
      (l.map (fun a => a.id)).Nodup → app ∈ l →
      (∀ a ∈ l, a ≠ app → a ∈ update_application_rows l app.id st t) ∧
      { app with status := st, updated_at := t } ∈ update_application_rows l app.id st t := by
  intro l
  induction l with
  | nil =>
    intro app st t _ happ
    cases happ
  | cons r rest ih =>
    intro app st t hnodup happ
    simp only [List.map_cons, List.nodup_cons] at hnodup
    obtain ⟨hrid, hnd⟩ := hnodup
    by_cases hr : r.id = app.id
    · have hra : r = app := by
        rcases List.mem_cons.mp happ with h' | h'
        · exact h'.symm
        · exact absurd (hr ▸ List.mem_map.mpr ⟨app, h', rfl⟩) hrid
      subst hra
      constructor
      · intro a ha hane
        rw [update_application_rows, if_pos rfl]
        rcases List.mem_cons.mp ha with h' | h'
        · exact absurd h' hane
        · exact List.mem_cons_of_mem _ h'
      · rw [update_application_rows, if_pos rfl]
        exact List.mem_cons_self _ _
    · have happr : app ∈ rest := by
        rcases List.mem_cons.mp happ with h' | h'
        · exact absurd (h' ▸ rfl) hr
        · exact h'
      obtain ⟨ih1, ih2⟩ := ih app st t hnd happr
      constructor
      · intro a ha hane
        rw [update_application_rows, if_neg hr]
        rcases List.mem_cons.mp ha with h' | h'
        · exact h' ▸ List.mem_cons_self _ _
        · exact List.mem_cons_of_mem _ (ih1 a h' hane)
      · rw [update_application_rows, if_neg hr]
        exact List.mem_cons_of_mem _ ih2

theorem create_fst_apps_superset (db : DB) (s : Nat) (post : InternshipPost)
    (st : ApplicationStatus) :
    ∀ a ∈ db.apps, a ∈ ((create_application_and_conversation_if_needed db s post st).1).apps := by
  intro a ha
  unfold create_application_and_conversation_if_needed
  cases db.apps.find? (fun a => decide (a.post_id = post.id ∧ a.student_user_id = s)) <;>
    simp [ha]

/-- The company-side reconciliation step preserves every non-PENDING
Application unchanged, and any Application it modifies goes from PENDING
to a non-PENDING status. -/
theorem update_pending_spec (db : DB) (c s : Nat) (d : Decision)
    (hnodup : (db.apps.map (fun a => a.id)).Nodup) :
    (∀ a ∈ db.apps, a.status ≠ ApplicationStatus.PENDING →
      a ∈ (update_pending_application_status_for_company_student_if_any db c s d).apps) ∧
    (∀ a ∈ db.apps,
      ∃ a' ∈ (update_pending_application_status_for_company_student_if_any db c s d).apps,
        a'.id = a.id ∧
        (a' = a ∨ (a.status = ApplicationStatus.PENDING ∧
          a'.status ≠ ApplicationStatus.PENDING))) := by
  unfold update_pending_application_status_for_company_student_if_any
  by_cases hguard : d ≠ Decision.LIKE ∧ d ≠ Decision.PASS
  · rw [if_pos hguard]
    exact ⟨fun a ha _ => ha, fun a ha => ⟨a, ha, rfl, Or.inl rfl⟩⟩
  · rw [if_neg hguard]
    dsimp only
    cases hpick : pickBest appLaterUpdated (db.apps.filter (fun a =>
        decide (a.company_user_id = c ∧ a.student_user_id = s ∧
          a.status = ApplicationStatus.PENDING))) with
    | none =>
      cases hlatest : latest_company_post_student_passed db c s with
      | none =>
        exact ⟨fun a ha _ => ha, fun a ha => ⟨a, ha, rfl, Or.inl rfl⟩⟩
      | some passed_post =>
        exact ⟨fun a ha _ => create_fst_apps_superset db s passed_post _ a ha,
          fun a ha => ⟨a, create_fst_apps_superset db s passed_post _ a ha, rfl, Or.inl rfl⟩⟩
    | some app =>
      have happmem := pickBest_mem _ _ _ hpick
      rw [List.mem_filter] at happmem
      obtain ⟨hamem, hapred⟩ := happmem
      have hpend : app.status = ApplicationStatus.PENDING := by
        have := of_decide_eq_true hapred
        exact this.2.2
      have hnsne :
          (if d = Decision.LIKE then ApplicationStatus.ACCEPTED
           else ApplicationStatus.DECLINED) ≠ ApplicationStatus.PENDING := by
        by_cases hd : d = Decision.LIKE <;> simp [hd]
      have hcond :
          ¬ (app.status =
            (if d = Decision.LIKE then ApplicationStatus.ACCEPTED
             else ApplicationStatus.DECLINED)) :=
        fun hh => hnsne (hh.symm.trans hpend)
      dsimp only
      rw [if_neg hcond]
      obtain ⟨hu1, hu2⟩ := update_application_rows_nodup db.apps app
        (if d = Decision.LIKE then ApplicationStatus.ACCEPTED else ApplicationStatus.DECLINED)
        db.now hnodup hamem
      have hcore :
          ∀ (res : DB),
            res.apps = update_application_rows db.apps app.id
              (if d = Decision.LIKE then ApplicationStatus.ACCEPTED
               else ApplicationStatus.DECLINED) db.now →
            (∀ a ∈ db.apps, a.status ≠ ApplicationStatus.PENDING → a ∈ res.apps) ∧
            (∀ a ∈ db.apps,
              ∃ a' ∈ res.apps, a'.id = a.id ∧
                (a' = a ∨ (a.status = ApplicationStatus.PENDING ∧
                  a'.status ≠ ApplicationStatus.PENDING))) := by
        intro res hres
        constructor
        · intro a ha hast
          rw [hres]
          exact hu1 a ha (fun he => hast (he ▸ hpend))
        · intro a ha
          by_cases hae : a = app
          · subst hae
            refine ⟨{ a with
                status := if d = Decision.LIKE then ApplicationStatus.ACCEPTED
                  else ApplicationStatus.DECLINED,
                updated_at := db.now }, ?_, rfl, Or.inr ⟨hpend, hnsne⟩⟩
            rw [hres]
            exact hu2
          · refine ⟨a, ?_, rfl, Or.inl rfl⟩
            rw [hres]
            exact hu1 a ha hae
      cases hconv : db.convs.find? (fun cv => decide (cv.application_id = app.id)) with
      | none => exact hcore _ rfl
      | some conv => exact hcore _ rfl

theorem create_fst_frame (db : DB) (s : Nat) (post : InternshipPost) (st : ApplicationStatus) :
    ((create_application_and_conversation_if_needed db s post st).1).posts = db.posts ∧
    ((create_application_and_conversation_if_needed db s post st).1).student_posts =
      db.student_posts ∧
    ((create_application_and_conversation_if_needed db s post st).1).spi = db.spi ∧
    ((create_application_and_conversation_if_needed db s post st).1).cspi = db.cspi := by
  unfold create_application_and_conversation_if_needed
  cases db.apps.find? (fun a => decide (a.post_id = post.id ∧ a.student_user_id = s)) <;>
    exact ⟨rfl, rfl, rfl, rfl⟩

theorem update_pending_frame (db : DB) (c s : Nat) (d : Decision) :
    (update_pending_application_status_for_company_student_if_any db c s d).posts = db.posts ∧
    (update_pending_application_status_for_company_student_if_any db c s d).student_posts =
      db.student_posts ∧
    (update_pending_application_status_for_company_student_if_any db c s d).spi = db.spi ∧
    (update_pending_application_status_for_company_student_if_any db c s d).cspi = db.cspi := by
  unfold update_pending_application_status_for_company_student_if_any
  dsimp only
  repeat' split
  all_goals first
    | exact ⟨rfl, rfl, rfl, rfl⟩
    | exact create_fst_frame _ _ _ _

/-- When no PENDING Application exists between the pair and every
most-recently-PASSed post already has an Application, the company-side
reconciliation step changes nothing at all. -/
theorem update_pending_noop (db : DB) (c s : Nat) (d : Decision)
    (hnp : db.apps.filter (fun a =>
      decide (a.company_user_id = c ∧ a.student_user_id = s ∧
        a.status = ApplicationStatus.PENDING)) = [])
    (hlp : ∀ post, latest_company_post_student_passed db c s = some post →
      db.apps.find? (fun a =>
        decide (a.post_id = post.id ∧ a.student_user_id = s)) ≠ none) :
    update_pending_application_status_for_company_student_if_any db c s d = db := by
  unfold update_pending_application_status_for_company_student_if_any
  split
  · rfl
  · dsimp only
    rw [hnp]
    simp only [pickBest, List.foldl_nil]
    cases hl : latest_company_post_student_passed db c s with
    | none => rfl
    | some post =>
      show (create_application_and_conversation_if_needed db s post
        ApplicationStatus.DECLINED).1 = db
      cases hf : db.apps.find? (fun a =>
          decide (a.post_id = post.id ∧ a.student_user_id = s)) with
      | none => exact absurd hf (hlp post hl)
      | some a0 =>
        unfold create_application_and_conversation_if_needed
        rw [hf]

/-! ## Preservation of the Application-vs-ledger invariant -/

theorem set_student_decision_rows_keys (s pid : Nat) (d : Decision) (t : Nat) :
    ∀ (l : List StudentPostInteraction) (su pu : Nat),
      (∃ r ∈ l, r.student_user_id = su ∧ r.post_id = pu) →
      ∃ r ∈ set_student_decision_rows l s pid d t,
        r.student_user_id = su ∧ r.post_id = pu := by
  intro l
  induction l with
  | nil =>
    rintro su pu ⟨r, hr, -⟩
    cases hr
  | cons r0 rest ih =>
    rintro su pu ⟨r, hr, hk⟩
    by_cases hc : r0.student_user_id = s ∧ r0.post_id = pid
    · rw [set_student_decision_rows, if_pos hc]
      rcases List.mem_cons.mp hr with he | hm
      · exact ⟨{ r0 with decision := d, decided_at := some t },
          List.mem_cons_self _ _, he ▸ hk⟩
      · exact ⟨r, List.mem_cons_of_mem _ hm, hk⟩
    · rw [set_student_decision_rows, if_neg hc]
      rcases List.mem_cons.mp hr with he | hm
      · exact ⟨r0, List.mem_cons_self _ _, he ▸ hk⟩
      · obtain ⟨r', hr', hk'⟩ := ih su pu ⟨r, hm, hk⟩
        exact ⟨r', List.mem_cons_of_mem _ hr', hk'⟩

theorem record_student_decision_establishes_row (db : DB) (s pid : Nat) (d : Decision) :
    ∃ r ∈ (record_student_decision db s pid d).spi,
      r.student_user_id = s ∧ r.post_id = pid := by
  unfold record_student_decision
  apply set_student_decision_rows_keys
  unfold ensure_student_interaction_row
  cases hf : db.spi.find? (fun r => decide (r.student_user_id = s ∧ r.post_id = pid)) with
  | some r =>
    exact ⟨r, List.mem_of_find?_eq_some hf, by simpa using List.find?_some hf⟩
  | none =>
    exact ⟨_, by dsimp only; exact List.mem_append_right _ (List.mem_cons_self _ _),
      ⟨rfl, rfl⟩⟩

theorem record_student_decision_preserves_rows (db : DB) (s pid : Nat) (d : Decision)
    (su pu : Nat) (h : ∃ r ∈ db.spi, r.student_user_id = su ∧ r.post_id = pu) :
    ∃ r ∈ (record_student_decision db s pid d).spi,
      r.student_user_id = su ∧ r.post_id = pu := by
  unfold record_student_decision
  apply set_student_decision_rows_keys
  unfold ensure_student_interaction_row
  cases hf : db.spi.find? (fun r => decide (r.student_user_id = s ∧ r.post_id = pid)) with
  | some r => exact h
  | none =>
    obtain ⟨r, hr, hk⟩ := h
    exact ⟨r, by dsimp only; exact List.mem_append_left _ hr, hk⟩

theorem create_invariant (db : DB) (s : Nat) (post : InternshipPost)
    (st : ApplicationStatus)
    (hrow : ∃ r ∈ db.spi, r.student_user_id = s ∧ r.post_id = post.id)
    (hinv : app_ledger_invariant db) :
    app_ledger_invariant ((create_application_and_conversation_if_needed db s post st).1) := by
  unfold app_ledger_invariant at hinv ⊢
  unfold create_application_and_conversation_if_needed
  cases hf : db.apps.find? (fun a => decide (a.post_id = post.id ∧ a.student_user_id = s)) with
  | some a0 => exact hinv
  | none =>
    intro a ha
    dsimp only at ha ⊢
    rcases List.mem_append.mp ha with hold | hnew
    · exact hinv a hold
    · rcases List.mem_cons.mp hnew with he | hnil
      · subst he
        exact hrow
      · cases hnil

theorem latest_passed_row (db : DB) (c s : Nat) (post : InternshipPost)
    (h : latest_company_post_student_passed db c s = some post) :
    ∃ r ∈ db.spi, r.student_user_id = s ∧ r.post_id = post.id := by
  unfold latest_company_post_student_passed at h
  dsimp only at h
  cases hp : pickBest spiLater (db.spi.filter (fun r =>
      decide (r.student_user_id = s ∧ r.decision = Decision.PASS) &&
      db.posts.any (fun p => decide (p.id = r.post_id ∧ p.company_user_id = c)))) with
  | none =>
    rw [hp] at h
    cases h
  | some row =>
    rw [hp] at h
    have hrmem := pickBest_mem _ _ _ hp
    rw [List.mem_filter] at hrmem
    obtain ⟨hrm, hrpred⟩ := hrmem
    simp only [Bool.and_eq_true, decide_eq_true_eq] at hrpred
    have hpid : post.id = row.post_id := by simpa using List.find?_some h
    exact ⟨row, hrm, hrpred.1.1, hpid.symm⟩

theorem update_application_rows_keys (aid : Nat) (st : ApplicationStatus) (t : Nat)
    (l : List Application) :
    ∀ a' ∈ update_application_rows l aid st t,
      ∃ a ∈ l, a.student_user_id = a'.student_user_id ∧ a.post_id = a'.post_id := by
  intro a' h
  rcases update_application_rows_mem aid st t l a' h with h1 | ⟨a, ha, -, heq⟩
  · exact ⟨a', h1, rfl, rfl⟩
  · exact ⟨a, ha, by rw [heq], by rw [heq]⟩

theorem update_pending_invariant (db : DB) (c s : Nat) (d : Decision)
    (hinv : app_ledger_invariant db) :
    app_ledger_invariant
      (update_pending_application_status_for_company_student_if_any db c s d) := by
  intro a' ha'
  rw [(update_pending_frame db c s d).2.2.1]
  revert ha'
  unfold update_pending_application_status_for_company_student_if_any
  split
  · exact hinv a'
  · dsimp only
    cases hpick : pickBest appLaterUpdated (db.apps.filter (fun a =>
        decide (a.company_user_id = c ∧ a.student_user_id = s ∧
          a.status = ApplicationStatus.PENDING))) with
    | none =>
      cases hl : latest_company_post_student_passed db c s with
      | none => exact hinv a'
      | some passed_post =>
        intro ha'
        have := create_invariant db s passed_post ApplicationStatus.DECLINED
          (latest_passed_row db c s passed_post hl) hinv a' ha'
        rwa [(create_fst_frame db s passed_post ApplicationStatus.DECLINED).2.2.1] at this
    | some app =>
      dsimp only
      have hkeys : ∀ (st : ApplicationStatus) (res : DB),
          res.apps = update_application_rows db.apps app.id st db.now →
          a' ∈ res.apps →
          ∃ r ∈ db.spi, r.student_user_id = a'.student_user_id ∧
            r.post_id = a'.post_id := by
        intro st res hres hmem
        rw [hres] at hmem
        obtain ⟨a, ha, hk1, hk2⟩ := update_application_rows_keys _ _ _ db.apps a' hmem
        obtain ⟨r, hr, hr1, hr2⟩ := hinv a ha
        exact ⟨r, hr, hr1.trans hk1, hr2.trans hk2⟩
      split <;> split
      · exact hinv a'
      · cases hconv : db.convs.find? (fun cv => decide (cv.application_id = app.id)) with
        | none => exact hkeys _ _ rfl
        | some conv => exact hkeys _ _ rfl
      · exact hinv a'
      · cases hconv : db.convs.find? (fun cv => decide (cv.application_id = app.id)) with
        | none => exact hkeys _ _ rfl
        | some conv => exact hkeys _ _ rfl

/-- The decision routes preserve the Application-vs-ledger reachability
invariant used by the student-feed characterization. -/
theorem decision_routes_preserve_app_ledger_invariant
    (db db' : DB) (uid pid spid : Nat) (d : ReqDecision)
    (hinv : app_ledger_invariant db) :
    (student_decision_post db uid UserRole.STUDENT pid d = Except.ok db' →
      app_ledger_invariant db') ∧
    (company_decision_student_post db uid UserRole.COMPANY spid d = Except.ok db' →
      app_ledger_invariant db') := by
  constructor
  · intro hrun
    unfold student_decision_post at hrun
    rw [if_neg (by simp)] at hrun
    cases hfind : db.posts.find? (fun p => decide (p.id = pid)) with
    | none =>
      rw [hfind] at hrun
      simp at hrun
    | some post =>
      rw [hfind] at hrun
      dsimp only at hrun
      by_cases hact : post.is_active = false
      · rw [if_pos hact] at hrun
        simp at hrun
      · rw [if_neg hact] at hrun
        simp only [Except.ok.injEq] at hrun
        subst hrun
        obtain ⟨_, _, _, happs, _, _, _, _, _⟩ :=
          record_student_decision_frame db uid post.id d.toDecision
        have hinv2 : app_ledger_invariant (record_student_decision db uid post.id
            d.toDecision) := by
          intro a ha
          rw [happs] at ha
          exact record_student_decision_preserves_rows db uid post.id d.toDecision _ _
            (hinv a ha)
        have hrow2 : ∃ r ∈ (record_student_decision db uid post.id d.toDecision).spi,
            r.student_user_id = uid ∧ r.post_id = post.id :=
          record_student_decision_establishes_row db uid post.id d.toDecision
        split
        · exact create_invariant _ uid post ApplicationStatus.DECLINED hrow2 hinv2
        · split
          · exact create_invariant _ uid post ApplicationStatus.ACCEPTED hrow2 hinv2
          · exact hinv2
  · intro hrun
    unfold company_decision_student_post at hrun
    rw [if_neg (by simp)] at hrun
    cases hfind : db.student_posts.find? (fun sp => decide (sp.id = spid)) with
    | none =>
      rw [hfind] at hrun
      simp at hrun
    | some spost =>
      rw [hfind] at hrun
      dsimp only at hrun
      by_cases hact : spost.is_active = false
      · rw [if_pos hact] at hrun
        simp at hrun
      · rw [if_neg hact] at hrun
        simp only [Except.ok.injEq] at hrun
        subst hrun
        obtain ⟨_, _, hspi, happs, _, _, _, _, _⟩ :=
          record_company_decision_frame db uid spost.id d.toDecision
        have hinv2 : app_ledger_invariant (record_company_decision db uid spost.id
            d.toDecision) := by
          intro a ha
          rw [happs] at ha
          rw [hspi]
          exact hinv a ha
        exact update_pending_invariant _ uid spost.student_user_id d.toDecision hinv2

/-! ## Lemmas about participants and read cursors -/

theorem ensure_participant_msgs (db : DB) (cid uid : Nat) (seed : Bool) :
    (ensure_participant db cid uid seed).msgs = db.msgs := by
  unfold ensure_participant
  cases db.parts.find? (fun r => decide (r.conversation_id = cid ∧ r.user_id = uid)) <;> rfl

theorem ensure_participant_row_exists (db : DB) (cid uid : Nat) (seed : Bool) :
    ∃ r, participant_row (ensure_participant db cid uid seed) cid uid = some r := by
  unfold participant_row ensure_participant
  cases hf : db.parts.find? (fun r => decide (r.conversation_id = cid ∧ r.user_id = uid)) with
  | some r => exact ⟨r, hf⟩
  | none =>
    refine ⟨⟨db.next_id, cid, uid,
      (if seed then max_message_id db cid else none), db.now⟩, ?_⟩
    dsimp only
    rw [find?_append_of_none hf]
    simp

theorem ensure_participant_preserves (db : DB) (cid uid cid' uid' : Nat) (seed : Bool)
    (r : ConversationParticipant)
    (h : participant_row db cid' uid' = some r) :
    participant_row (ensure_participant db cid uid seed) cid' uid' = some r := by
  unfold participant_row at h ⊢
  unfold ensure_participant
  cases hf : db.parts.find? (fun r => decide (r.conversation_id = cid ∧ r.user_id = uid)) with
  | some _ => exact h
  | none =>
    dsimp only
    rw [List.find?_append, h]
    rfl

theorem set_cursor_find? (cid uid mid t : Nat) :
    ∀ (l : List ConversationParticipant),
      (set_participant_cursor_rows l cid uid mid t).find?
        (fun r => decide (r.conversation_id = cid ∧ r.user_id = uid)) =
      (l.find? (fun r => decide (r.conversation_id = cid ∧ r.user_id = uid))).map
        (fun r => { r with last_read_message_id := some mid, updated_at := t }) := by
  intro l
  induction l with
  | nil => rfl
  | cons r rest ih =>
    by_cases hcond : r.conversation_id = cid ∧ r.user_id = uid
    · rw [set_participant_cursor_rows, if_pos hcond]
      rw [List.find?_cons_of_pos _ (by simpa using hcond),
        List.find?_cons_of_pos _ (by simpa using hcond)]
      rfl
    · rw [set_participant_cursor_rows, if_neg hcond]
      rw [List.find?_cons_of_neg _ (by simpa using hcond),
        List.find?_cons_of_neg _ (by simpa using hcond)]
      exact ih

/-! ## Lemmas about the latest-message query and unread counts -/

theorem maxfold_some_ne_none : ∀ (l : List Message) (x : Nat),
    l.foldl
      (fun acc m =>
        match acc with
        | none => some m.id
        | some y => some (max y m.id)) (some x) ≠ none := by
  intro l
  induction l with
  | nil =>
    intro x h
    cases h
  | cons m rest ih =>
    intro x
    rw [List.foldl_cons]
    exact ih (max x m.id)

theorem max_message_id_none (db : DB) (cid : Nat)
    (h : max_message_id db cid = none) :
    db.msgs.filter (fun m => decide (m.conversation_id = cid)) = [] := by
  unfold max_message_id at h
  cases hl : db.msgs.filter (fun m => decide (m.conversation_id = cid)) with
  | nil => rfl
  | cons m rest =>
    rw [hl, List.foldl_cons] at h
    exact absurd h (maxfold_some_ne_none rest m.id)

theorem maxfold_bound : ∀ (l : List Message) (acc : Option Nat) (k : Nat),
    l.foldl
      (fun acc m =>
        match acc with
        | none => some m.id
        | some y => some (max y m.id)) acc = some k →
    (∀ m ∈ l, m.id ≤ k) ∧ (∀ x, acc = some x → x ≤ k) := by
  intro l
  induction l with
  | nil =>
    intro acc k h
    rw [List.foldl_nil] at h
    refine ⟨by simp, fun x hx => ?_⟩
    rw [hx] at h
    injection h with h'
    exact le_of_eq h'
  | cons m rest ih =>
    intro acc k h
    rw [List.foldl_cons] at h
    obtain ⟨ih1, ih2⟩ := ih _ k h
    cases acc with
    | none =>
      have hm : m.id ≤ k := ih2 m.id rfl
      refine ⟨?_, fun x hx => by cases hx⟩
      intro m' hm'
      rcases List.mem_cons.mp hm' with he | hmem
      · rw [he]; exact hm
      · exact ih1 m' hmem
    | some y =>
      have hmax : max y m.id ≤ k := ih2 _ rfl
      refine ⟨?_, ?_⟩
      · intro m' hm'
        rcases List.mem_cons.mp hm' with he | hmem
        · rw [he]; exact le_trans (Nat.le_max_right y m.id) hmax
        · exact ih1 m' hmem
      · intro x hx
        injection hx with hx'
        subst hx'
        exact le_trans (Nat.le_max_left y m.id) hmax

theorem max_message_id_bound (db : DB) (cid k : Nat)
    (h : max_message_id db cid = some k) :
    ∀ m ∈ db.msgs, m.conversation_id = cid → m.id ≤ k := by
  unfold max_message_id at h
  intro m hm hcidm
  have hmem : m ∈ db.msgs.filter (fun m => decide (m.conversation_id = cid)) :=
    List.mem_filter.mpr ⟨hm, by simp [hcidm]⟩
  exact (maxfold_bound _ none k h).1 m hmem

theorem unread_count_zero_of_bound (db : DB) (cid uid k : Nat)
    (hb : ∀ m ∈ db.msgs, m.conversation_id = cid → m.id ≤ k) :
    unread_count db cid uid (some k) = 0 := by
  unfold unread_count
  rw [List.length_eq_zero, List.filter_eq_nil_iff]
  intro m hm hpred
  simp only [Bool.and_eq_true, decide_eq_true_eq] at hpred
  have := hb m hm hpred.1.1
  omega

theorem unread_count_zero_of_empty (db : DB) (cid uid : Nat) (cur : Option Nat)
    (h : db.msgs.filter (fun m => decide (m.conversation_id = cid)) = []) :
    unread_count db cid uid cur = 0 := by
  unfold unread_count
  rw [List.length_eq_zero, List.filter_eq_nil_iff]
  intro m hm hpred
  simp only [Bool.and_eq_true, decide_eq_true_eq] at hpred
  have hmem : m ∈ db.msgs.filter (fun m => decide (m.conversation_id = cid)) :=
    List.mem_filter.mpr ⟨hm, by simp [hpred.1.1]⟩
  rw [h] at hmem
  cases hmem

theorem unread_count_congr {db db' : DB} (cid uid : Nat) (cur : Option Nat)
    (h : db'.msgs = db.msgs) :
    unread_count db' cid uid cur = unread_count db cid uid cur := by
  unfold unread_count
  rw [h]

/-! ## Execution lemmas for the reconciliation primitives -/

theorem create_app_existing (db : DB) (s : Nat) (post : InternshipPost)
    (st : ApplicationStatus) (a : Application)
    (h : db.apps.find? (fun a => decide (a.post_id = post.id ∧ a.student_user_id = s)) = some a) :
    create_application_and_conversation_if_needed db s post st = (db, a) := by
  unfold create_application_and_conversation_if_needed
  rw [h]

theorem create_app_fresh (db : DB) (s : Nat) (post : InternshipPost)
    (st : ApplicationStatus)
    (h : db.apps.find? (fun a => decide (a.post_id = post.id ∧ a.student_user_id = s)) = none) :
    create_application_and_conversation_if_needed db s post st =
      ({ db with
          apps := db.apps ++
            [⟨db.next_id, post.id, s, post.company_user_id, st, db.now, db.now⟩],
          convs := db.convs ++ [⟨db.next_id + 1, db.next_id⟩],
          msgs := db.msgs ++
            [⟨db.next_id + 2, db.next_id + 1, MessageType.SYSTEM, none,
              (if st = ApplicationStatus.PENDING then PENDING_TEXT
               else if st = ApplicationStatus.ACCEPTED then ACCEPTED_TEXT
               else DECLINED_TEXT), db.now⟩],
          parts := db.parts ++
            [⟨db.next_id + 3, db.next_id + 1, s, some (db.next_id + 2), db.now⟩,
             ⟨db.next_id + 4, db.next_id + 1, post.company_user_id, some (db.next_id + 2), db.now⟩],
          next_id := db.next_id + 5 },
        ⟨db.next_id, post.id, s, post.company_user_id, st, db.now, db.now⟩) := by
  unfold create_application_and_conversation_if_needed
  rw [h]

theorem student_decision_post_ok (db : DB) (s pid : Nat) (p : InternshipPost) (d : ReqDecision)
    (hfind : db.posts.find? (fun q => decide (q.id = pid)) = some p)
    (hact : p.is_active = true) :
    student_decision_post db s UserRole.STUDENT pid d =
      .ok
        (if companyHasPassedStudent (record_student_decision db s p.id d.toDecision)
            p.company_user_id s then
          (create_application_and_conversation_if_needed
            (record_student_decision db s p.id d.toDecision) s p ApplicationStatus.DECLINED).1
        else if d.toDecision = Decision.LIKE then
          (create_application_and_conversation_if_needed
            (record_student_decision db s p.id d.toDecision) s p ApplicationStatus.ACCEPTED).1
        else record_student_decision db s p.id d.toDecision) := by
  unfold student_decision_post
  rw [hfind]
  simp [hact]

theorem company_decision_student_post_ok (db : DB) (c spid : Nat)
    (spost : StudentProfilePost) (d : ReqDecision)
    (hfind : db.student_posts.find? (fun sp => decide (sp.id = spid)) = some spost)
    (hact : spost.is_active = true) :
    company_decision_student_post db c UserRole.COMPANY spid d =
      .ok (update_pending_application_status_for_company_student_if_any
        (record_company_decision db c spost.id d.toDecision) c spost.student_user_id
        d.toDecision) := by
  unfold company_decision_student_post
  rw [hfind]
  simp [hact]

theorem company_route_frame (db db1 : DB) (c spid : Nat) (d : ReqDecision)
    (h : company_decision_student_post db c UserRole.COMPANY spid d = Except.ok db1) :
    db1.posts = db.posts ∧ db1.student_posts = db.student_posts ∧ db1.spi = db.spi := by
  unfold company_decision_student_post at h
  rw [if_neg (by simp)] at h
  cases hfind : db.student_posts.find? (fun sp => decide (sp.id = spid)) with
  | none =>
    rw [hfind] at h
    simp at h
  | some spost =>
    rw [hfind] at h
    dsimp only at h
    by_cases hact : spost.is_active = false
    · rw [if_pos hact] at h
      simp at h
    · rw [if_neg hact] at h
      simp only [Except.ok.injEq] at h
      subst h
      obtain ⟨hposts, hsposts, hspi, _, _, _, _, _, _⟩ :=
        record_company_decision_frame db c spost.id d.toDecision
      obtain ⟨f1, f2, f3, _⟩ := update_pending_frame
        (record_company_decision db c spost.id d.toDecision) c spost.student_user_id
        d.toDecision
      exact ⟨f1.trans hposts, f2.trans hsposts, f3.trans hspi⟩

/-! ## Claims -/

/-- C1: for every student s and every active post p on which no company
pre-PASS applies and for which no Application exists yet, recording
decision LIKE once creates exactly one Application(p, s) in status
ACCEPTED, with exactly one Conversation containing exactly one SYSTEM
message "Ready to connect?"; recording LIKE again is a no-op: still one
Application (the same one, so its status is unchanged), and still exactly
that one message. -/
theorem C1_student_like_accepted_then_noop
    (db : DB) (s pid : Nat) (p : InternshipPost)
    (hfind : db.posts.find? (fun q => decide (q.id = pid)) = some p)
    (hact : p.is_active = true)
    (hpass : companyHasPassedStudent db p.company_user_id s = false)
    (hnoapp : db.apps.find? (fun a => decide (a.post_id = p.id ∧ a.student_user_id = s)) = none)
    (hwf : wf db) :
    ∃ db1 a c m db2,
      student_decision_post db s UserRole.STUDENT pid ReqDecision.LIKE = Except.ok db1 ∧
      appsFor db1 p.id s = [a] ∧
      a.status = ApplicationStatus.ACCEPTED ∧
      convsForApp db1 a.id = [c] ∧
      msgsInConv db1 c.id = [m] ∧
      m.type = MessageType.SYSTEM ∧
      m.text = ACCEPTED_TEXT ∧
      student_decision_post db1 s UserRole.STUDENT pid ReqDecision.LIKE = Except.ok db2 ∧
      appsFor db2 p.id s = [a] ∧
      msgsInConv db2 c.id = [m] := by
  obtain ⟨w1, w2, w3, w4, w5, w6, w7, w8⟩ := hwf
  have hrun1 := student_decision_post_ok db s pid p ReqDecision.LIKE hfind hact
  simp only [ReqDecision.toDecision] at hrun1
  obtain ⟨hposts, hsposts, hcspi, happs, hconvs, hparts, hmsgs, hnow, hnid⟩ :=
    record_student_decision_frame db s p.id Decision.LIKE
  set dbR := record_student_decision db s p.id Decision.LIKE with hdbR
  have hpassR : companyHasPassedStudent dbR p.company_user_id s = false := by
    rw [companyHasPassedStudent_congr p.company_user_id s hsposts hcspi]
    exact hpass
  have hnoappR :
      dbR.apps.find? (fun a => decide (a.post_id = p.id ∧ a.student_user_id = s)) = none := by
    rw [happs]; exact hnoapp
  rw [hpassR, create_app_fresh dbR s p ApplicationStatus.ACCEPTED hnoappR] at hrun1
  simp only [Bool.false_eq_true, if_false, reduceIte, reduceCtorEq, ite_true, ite_false] at hrun1
  set A : Application :=
    ⟨dbR.next_id, p.id, s, p.company_user_id, ApplicationStatus.ACCEPTED, dbR.now, dbR.now⟩
    with hA
  set C : Conversation := ⟨dbR.next_id + 1, dbR.next_id⟩ with hC
  set M : Message :=
    ⟨dbR.next_id + 2, dbR.next_id + 1, MessageType.SYSTEM, none, ACCEPTED_TEXT, dbR.now⟩
    with hM
  set D1 : DB :=
    { dbR with
        apps := dbR.apps ++ [A],
        convs := dbR.convs ++ [C],
        msgs := dbR.msgs ++ [M],
        parts := dbR.parts ++
          [⟨dbR.next_id + 3, dbR.next_id + 1, s, some (dbR.next_id + 2), dbR.now⟩,
           ⟨dbR.next_id + 4, dbR.next_id + 1, p.company_user_id, some (dbR.next_id + 2),
            dbR.now⟩],
        next_id := dbR.next_id + 5 }
    with hD1
  have hfilter0 :
      db.apps.filter (fun a => decide (a.post_id = p.id ∧ a.student_user_id = s)) = [] := by
    rw [List.filter_eq_nil_iff]
    intro a ha
    simpa using List.find?_eq_none.mp hnoapp a ha
  have fact1 : appsFor D1 p.id s = [A] := by
    unfold appsFor
    show (dbR.apps ++ [A]).filter (fun a => decide (a.post_id = p.id ∧ a.student_user_id = s))
      = [A]
    rw [List.filter_append, happs, hfilter0]
    simp [hA]
  have fact2 : convsForApp D1 A.id = [C] := by
    unfold convsForApp
    show (dbR.convs ++ [C]).filter (fun c => decide (c.application_id = A.id)) = [C]
    have hAid : A.id = dbR.next_id := rfl
    have hfC : db.convs.filter (fun c => decide (c.application_id = dbR.next_id)) = [] := by
      rw [List.filter_eq_nil_iff]
      intro c hc
      have hlt := (w6 c hc).2
      simp only [decide_eq_true_eq]
      omega
    rw [hAid, List.filter_append, hconvs, hfC]
    simp [hC]
  have fact3 : msgsInConv D1 C.id = [M] := by
    unfold msgsInConv
    show (dbR.msgs ++ [M]).filter (fun m => decide (m.conversation_id = C.id)) = [M]
    have hCid : C.id = dbR.next_id + 1 := rfl
    have hfM : db.msgs.filter (fun m => decide (m.conversation_id = dbR.next_id + 1)) = [] := by
      rw [List.filter_eq_nil_iff]
      intro m hm
      have hlt := (w8 m hm).2
      simp only [decide_eq_true_eq]
      omega
    rw [hCid, List.filter_append, hmsgs, hfM]
    simp [hM]
  have hD1posts : D1.posts = db.posts := by rw [hD1]; simpa using hposts
  have hD1sposts : D1.student_posts = db.student_posts := by rw [hD1]; simpa using hsposts
  have hD1cspi : D1.cspi = db.cspi := by rw [hD1]; simpa using hcspi
  have hfindD1 : D1.posts.find? (fun q => decide (q.id = pid)) = some p := by
    rw [hD1posts]; exact hfind
  have hrun2 := student_decision_post_ok D1 s pid p ReqDecision.LIKE hfindD1 hact
  simp only [ReqDecision.toDecision] at hrun2
  obtain ⟨hposts2, hsposts2, hcspi2, happs2, hconvs2, hparts2, hmsgs2, hnow2, hnid2⟩ :=
    record_student_decision_frame D1 s p.id Decision.LIKE
  set dbR2 := record_student_decision D1 s p.id Decision.LIKE with hdbR2
  have hpass2 : companyHasPassedStudent dbR2 p.company_user_id s = false := by
    rw [companyHasPassedStudent_congr p.company_user_id s hsposts2 hcspi2,
      companyHasPassedStudent_congr p.company_user_id s hD1sposts hD1cspi]
    exact hpass
  have hfound2 :
      dbR2.apps.find? (fun a => decide (a.post_id = p.id ∧ a.student_user_id = s)) = some A := by
    rw [happs2, hD1]
    show (dbR.apps ++ [A]).find? _ = some A
    rw [find?_append_of_none (by rw [happs]; exact hnoapp)]
    simp [hA]
  rw [hpass2, create_app_existing dbR2 s p ApplicationStatus.ACCEPTED A hfound2] at hrun2
  simp only [Bool.false_eq_true, if_false, reduceIte] at hrun2
  have fact4 : appsFor dbR2 p.id s = [A] := by
    unfold appsFor at fact1 ⊢
    rw [happs2]
    exact fact1
  have fact5 : msgsInConv dbR2 C.id = [M] := by
    unfold msgsInConv at fact3 ⊢
    rw [hmsgs2]
    exact fact3
  exact ⟨D1, A, C, M, dbR2, hrun1, fact1, by rw [hA], fact2, fact3, by rw [hM], by rw [hM],
    hrun2, fact4, fact5⟩

/-- Witness for C1: student 200 LIKEs active post 1 of company 100 in a
database with no prior interactions. -/
theorem C1_student_like_accepted_then_noop_witness :
    ∃ db1 a c m db2,
      student_decision_post dbC1 200 UserRole.STUDENT 1 ReqDecision.LIKE = Except.ok db1 ∧
      appsFor db1 1 200 = [a] ∧
      a.status = ApplicationStatus.ACCEPTED ∧
      convsForApp db1 a.id = [c] ∧
      msgsInConv db1 c.id = [m] ∧
      m.type = MessageType.SYSTEM ∧
      m.text = ACCEPTED_TEXT ∧
      student_decision_post db1 200 UserRole.STUDENT 1 ReqDecision.LIKE = Except.ok db2 ∧
      appsFor db2 1 200 = [a] ∧
      msgsInConv db2 c.id = [m] :=
  C1_student_like_accepted_then_noop dbC1 200 1 ⟨1, 100, true, 0⟩ rfl rfl rfl rfl (by decide)

/-- C2 counterexample: in `dbC2` company 100 has already PASSed student
200's ProfileCard, and an Application for (post 1, student 200) already
exists in ACCEPTED state.  Student 200 then records a decision (PASS) on
post 1, yet afterwards the Application's status is still ACCEPTED — not
DECLINED as the claim requires for pre-existing Applications: the student
decision path only creates-if-absent and never transitions an existing
Application. -/
theorem C2_company_prepass_counterexample :
    companyHasPassedStudent dbC2 100 200 = true ∧
    (∃ db',
      student_decision_post dbC2 200 UserRole.STUDENT 1 ReqDecision.PASS = Except.ok db' ∧
      appsFor db' 1 200 = [⟨4, 1, 200, 100, ApplicationStatus.ACCEPTED, 0, 0⟩]) ∧
    ApplicationStatus.ACCEPTED ≠ ApplicationStatus.DECLINED :=
  ⟨rfl, ⟨_, rfl, by decide⟩, by decide⟩

/-- C2 (amended): when the company owning active post p has already PASSed
student s's ProfileCard, any student decision on p leaves an Application
for (p, s) in place: if none existed it is created directly in DECLINED
state; but if one already existed (whatever its status) the Application
table is left completely unchanged — the pre-PASS path never transitions
an existing Application. -/
theorem C2_company_prepass_decline_amended
    (db : DB) (s pid : Nat) (p : InternshipPost) (d : ReqDecision)
    (hfind : db.posts.find? (fun q => decide (q.id = pid)) = some p)
    (hact : p.is_active = true)
    (hpass0 : companyHasPassedStudent db p.company_user_id s = true) :
    ∃ db', student_decision_post db s UserRole.STUDENT pid d = Except.ok db' ∧
      (db.apps.find? (fun a => decide (a.post_id = p.id ∧ a.student_user_id = s)) = none →
        ∃ a, appsFor db' p.id s = [a] ∧ a.status = ApplicationStatus.DECLINED) ∧
      (∀ a0,
        db.apps.find? (fun a => decide (a.post_id = p.id ∧ a.student_user_id = s)) = some a0 →
        db'.apps = db.apps) := by
  have hrun := student_decision_post_ok db s pid p d hfind hact
  obtain ⟨hposts, hsposts, hcspi, happs, hconvs, hparts, hmsgs, hnow, hnid⟩ :=
    record_student_decision_frame db s p.id d.toDecision
  set dbR := record_student_decision db s p.id d.toDecision with hdbR
  have hpassR : companyHasPassedStudent dbR p.company_user_id s = true := by
    rw [companyHasPassedStudent_congr p.company_user_id s hsposts hcspi]
    exact hpass0
  rw [hpassR] at hrun
  simp only [eq_self_iff_true, if_true, reduceIte] at hrun
  cases h : db.apps.find? (fun a => decide (a.post_id = p.id ∧ a.student_user_id = s)) with
  | none =>
    have hnR :
        dbR.apps.find? (fun a => decide (a.post_id = p.id ∧ a.student_user_id = s)) = none := by
      rw [happs]; exact h
    rw [create_app_fresh dbR s p ApplicationStatus.DECLINED hnR] at hrun
    have hfilter0 :
        db.apps.filter (fun a => decide (a.post_id = p.id ∧ a.student_user_id = s)) = [] := by
      rw [List.filter_eq_nil_iff]
      intro a ha
      simpa using List.find?_eq_none.mp h a ha
    refine ⟨_, hrun, ?_, ?_⟩
    · intro _
      refine ⟨⟨dbR.next_id, p.id, s, p.company_user_id, ApplicationStatus.DECLINED,
        dbR.now, dbR.now⟩, ?_, rfl⟩
      unfold appsFor
      dsimp only
      rw [List.filter_append, happs, hfilter0]
      simp
    · intro a0 ha0
      cases ha0
  | some a0 =>
    have hsR :
        dbR.apps.find? (fun a => decide (a.post_id = p.id ∧ a.student_user_id = s)) = some a0 := by
      rw [happs]; exact h
    rw [create_app_existing dbR s p ApplicationStatus.DECLINED a0 hsR] at hrun
    refine ⟨_, hrun, ?_, ?_⟩
    · intro hn
      cases hn
    · intro a1 ha1
      show dbR.apps = db.apps
      exact happs

/-- C3 counterexample: in `dbC2` the Application (id 4, post 1, student
200) is ACCEPTED; the owning company 100 calls the application-status
endpoint with PASS and the status flips from ACCEPTED to DECLINED —
contradicting the claim that once ACCEPTED or DECLINED the status never
changes again. -/
theorem C3_status_flip_counterexample :
    appsFor dbC2 1 200 = [⟨4, 1, 200, 100, ApplicationStatus.ACCEPTED, 0, 0⟩] ∧
    ∃ db',
      set_application_status dbC2 100 UserRole.COMPANY 4 ReqStatus.PASS = Except.ok db' ∧
      appsFor db' 1 200 = [⟨4, 1, 200, 100, ApplicationStatus.DECLINED, 0, 9⟩] :=
  ⟨by decide, _, rfl, by decide⟩

/-- C3 (amended): through the decision operations (the reconciliation
path) Application rows are never mutated except PENDING → ACCEPTED or
PENDING → DECLINED: the student decision route preserves every existing
Application row unchanged, and the company decision route preserves every
non-PENDING row unchanged while any row it does modify goes from PENDING
to a non-PENDING status.  The application-status endpoint can overwrite a
non-PENDING status (see the counterexample: ACCEPTED ↔ DECLINED flips),
but even it never produces a PENDING row: every row after a successful
call is either an untouched old row or has a non-PENDING status, since
the request schema admits only ACCEPTED/DECLINED/LIKE/PASS. -/
theorem C3_amended_status_machine
    (db db' : DB) (uid pid spid aid : Nat) (d : ReqDecision) (req : ReqStatus)
    (hnodup : (db.apps.map (fun a => a.id)).Nodup) :
    (student_decision_post db uid UserRole.STUDENT pid d = Except.ok db' →
      ∀ a ∈ db.apps, a ∈ db'.apps) ∧
    (company_decision_student_post db uid UserRole.COMPANY spid d = Except.ok db' →
      (∀ a ∈ db.apps, a.status ≠ ApplicationStatus.PENDING → a ∈ db'.apps) ∧
      (∀ a ∈ db.apps, ∃ a' ∈ db'.apps, a'.id = a.id ∧
        (a' = a ∨ (a.status = ApplicationStatus.PENDING ∧
          a'.status ≠ ApplicationStatus.PENDING)))) ∧
    (set_application_status db uid UserRole.COMPANY aid req = Except.ok db' →
      ∀ a' ∈ db'.apps, a' ∈ db.apps ∨ a'.status ≠ ApplicationStatus.PENDING) := by
  refine ⟨?_, ?_, ?_⟩
  · -- student decision route: every old Application row survives unchanged
    intro hrun
    unfold student_decision_post at hrun
    rw [if_neg (by simp)] at hrun
    cases hfind : db.posts.find? (fun p => decide (p.id = pid)) with
    | none =>
      rw [hfind] at hrun
      simp at hrun
    | some post =>
      rw [hfind] at hrun
      dsimp only at hrun
      by_cases hact : post.is_active = false
      · rw [if_pos hact] at hrun
        simp at hrun
      · rw [if_neg hact] at hrun
        simp only [Except.ok.injEq] at hrun
        subst hrun
        obtain ⟨_, _, _, happs, _, _, _, _, _⟩ :=
          record_student_decision_frame db uid post.id d.toDecision
        intro a ha
        split
        · exact create_fst_apps_superset _ uid post _ a (by rw [happs]; exact ha)
        · split
          · exact create_fst_apps_superset _ uid post _ a (by rw [happs]; exact ha)
          · rw [happs]; exact ha
  · -- company decision route: only PENDING rows move, to non-PENDING
    intro hrun
    unfold company_decision_student_post at hrun
    rw [if_neg (by simp)] at hrun
    cases hfind : db.student_posts.find? (fun sp => decide (sp.id = spid)) with
    | none =>
      rw [hfind] at hrun
      simp at hrun
    | some spost =>
      rw [hfind] at hrun
      dsimp only at hrun
      by_cases hact : spost.is_active = false
      · rw [if_pos hact] at hrun
        simp at hrun
      · rw [if_neg hact] at hrun
        simp only [Except.ok.injEq] at hrun
        subst hrun
        obtain ⟨_, _, _, happs, _, _, _, _, _⟩ :=
          record_company_decision_frame db uid spost.id d.toDecision
        have hnodup2 :
            ((record_company_decision db uid spost.id d.toDecision).apps.map
              (fun a => a.id)).Nodup := by
          rw [happs]; exact hnodup
        obtain ⟨h1, h2⟩ := update_pending_spec
          (record_company_decision db uid spost.id d.toDecision) uid
          spost.student_user_id d.toDecision hnodup2
        constructor
        · intro a ha hst
          exact h1 a (by rw [happs]; exact ha) hst
        · intro a ha
          exact h2 a (by rw [happs]; exact ha)
  · -- status endpoint: the result never contains a freshly-PENDING row
    intro hrun
    unfold set_application_status at hrun
    cases hfind : db.apps.find? (fun a => decide (a.id = aid)) with
    | none =>
      rw [hfind] at hrun
      simp at hrun
    | some app =>
      rw [hfind] at hrun
      dsimp only at hrun
      by_cases hrole : UserRole.COMPANY ≠ UserRole.COMPANY ∨ app.company_user_id ≠ uid
      · rw [if_pos hrole] at hrun
        simp at hrun
      · rw [if_neg hrole] at hrun
        by_cases hst : app.status = req.toStatus
        · rw [if_pos hst] at hrun
          simp only [Except.ok.injEq] at hrun
          subst hrun
          exact fun a' ha' => Or.inl ha'
        · rw [if_neg hst] at hrun
          cases hconv : db.convs.find? (fun c => decide (c.application_id = app.id)) with
          | none =>
            rw [hconv] at hrun
            simp at hrun
          | some conv =>
            rw [hconv] at hrun
            simp only [Except.ok.injEq] at hrun
            subst hrun
            intro a' ha'
            have ha'' : a' ∈ update_application_rows db.apps app.id req.toStatus db.now := by
              simpa [add_system_message] using ha'
            rcases update_application_rows_mem app.id req.toStatus db.now db.apps a' ha'' with
              h | ⟨a, _, _, heq⟩
            · exact Or.inl h
            · refine Or.inr ?_
              rw [heq]
              cases req <;> simp [ReqStatus.toStatus]

/-- Witness for the amended C3: student 200 LIKEs post 1 in `dbC1`; every
pre-existing Application row survives in the result (vacuously here, and
the run itself is exercised concretely through the theorem). -/
theorem C3_amended_status_machine_witness :
    ∃ db', student_decision_post dbC1 200 UserRole.STUDENT 1 ReqDecision.LIKE = Except.ok db' ∧
      ∀ a ∈ dbC1.apps, a ∈ db'.apps := by
  refine ⟨_, rfl, ?_⟩
  exact (C3_amended_status_machine dbC1 _ 200 1 0 0 ReqDecision.LIKE ReqStatus.PASS
    (by decide)).1 rfl

/-- C4 counterexample: in `dbC4` the student has PASSed post 1 (which has
no Application) while a PENDING Application exists on post 2.  The first
company LIKE on the student's card transitions the PENDING Application
(one Application, two messages); the identical second LIKE is not a
no-op: it creates a brand-new DECLINED Application for the PASSed post 1,
with a new SYSTEM seed message (two Applications, three messages). -/
theorem C4_idempotence_counterexample :
    ∃ db1 db2,
      company_decision_student_post dbC4 100 UserRole.COMPANY 3 ReqDecision.LIKE =
        Except.ok db1 ∧
      company_decision_student_post db1 100 UserRole.COMPANY 3 ReqDecision.LIKE =
        Except.ok db2 ∧
      db1.apps.length = 1 ∧ db2.apps.length = 2 ∧
      db1.msgs.length = 2 ∧ db2.msgs.length = 3 :=
  ⟨_, _, rfl, rfl, by decide, by decide, by decide, by decide⟩

/-- C4 (amended): repeating the same company decision is a no-op on
Applications, Conversations, Messages and read cursors provided that
after the first call no PENDING Application remains between the company
and the student and the student's most-recently-PASSed post of this
company (if any) already has an Application.  Without that proviso the
repeat call can create a new DECLINED Application for a PASSed post (see
the counterexample). -/
theorem C4_company_decision_idempotent_amended
    (db db1 : DB) (c spid : Nat) (spost : StudentProfilePost) (d : ReqDecision)
    (hfind : db.student_posts.find? (fun sp => decide (sp.id = spid)) = some spost)
    (hact : spost.is_active = true)
    (h1 : company_decision_student_post db c UserRole.COMPANY spid d = Except.ok db1)
    (hnopending : db1.apps.filter (fun a =>
      decide (a.company_user_id = c ∧ a.student_user_id = spost.student_user_id ∧
        a.status = ApplicationStatus.PENDING)) = [])
    (hpassed : ∀ post,
      latest_company_post_student_passed db1 c spost.student_user_id = some post →
      db1.apps.find? (fun a =>
        decide (a.post_id = post.id ∧ a.student_user_id = spost.student_user_id)) ≠ none) :
    ∃ db2, company_decision_student_post db1 c UserRole.COMPANY spid d = Except.ok db2 ∧
      db2.apps = db1.apps ∧ db2.convs = db1.convs ∧ db2.msgs = db1.msgs ∧
      db2.parts = db1.parts := by
  obtain ⟨hposts1, hsposts1, hspi1⟩ := company_route_frame db db1 c spid d h1
  have hfind1 : db1.student_posts.find? (fun sp => decide (sp.id = spid)) = some spost := by
    rw [hsposts1]; exact hfind
  have hrun2 := company_decision_student_post_ok db1 c spid spost d hfind1 hact
  obtain ⟨hposts, hsposts, hspi, happs, hconvs, hparts, hmsgs, hnow, hnid⟩ :=
    record_company_decision_frame db1 c spost.id d.toDecision
  set dbR := record_company_decision db1 c spost.id d.toDecision with hdbR
  have hnp' : dbR.apps.filter (fun a =>
      decide (a.company_user_id = c ∧ a.student_user_id = spost.student_user_id ∧
        a.status = ApplicationStatus.PENDING)) = [] := by
    rw [happs]; exact hnopending
  have hlat : latest_company_post_student_passed dbR c spost.student_user_id =
      latest_company_post_student_passed db1 c spost.student_user_id :=
    latest_passed_congr c spost.student_user_id hspi hposts
  have hlp' : ∀ post,
      latest_company_post_student_passed dbR c spost.student_user_id = some post →
      dbR.apps.find? (fun a =>
        decide (a.post_id = post.id ∧ a.student_user_id = spost.student_user_id)) ≠ none := by
    intro post h
    rw [happs]
    exact hpassed post (hlat ▸ h)
  rw [update_pending_noop dbR c spost.student_user_id d.toDecision hnp' hlp'] at hrun2
  exact ⟨dbR, hrun2, happs, hconvs, hmsgs, hparts⟩

/-- Witness for the amended C4 at the settled concrete database `dbC4b`
(the company decision there is already reflected everywhere, so repeating
it changes no Application, Conversation, Message or read cursor). -/
theorem C4_company_decision_idempotent_amended_witness :
    company_decision_student_post dbC4b 100 UserRole.COMPANY 3 ReqDecision.LIKE =
      Except.ok dbC4b ∧
    ∃ db2, company_decision_student_post dbC4b 100 UserRole.COMPANY 3 ReqDecision.LIKE =
        Except.ok db2 ∧
      db2.apps = dbC4b.apps ∧ db2.convs = dbC4b.convs ∧ db2.msgs = dbC4b.msgs ∧
      db2.parts = dbC4b.parts :=
  ⟨rfl,
    C4_company_decision_idempotent_amended dbC4b dbC4b 100 3 ⟨3, 200, true, 0, none⟩
      ReqDecision.LIKE rfl rfl rfl (by decide)
      (fun post h => by
        have h' := (show latest_company_post_student_passed dbC4b 100 200 =
          some (⟨1, 100, true, 0⟩ : InternshipPost) from rfl).symm.trans h
        cases h'
        decide)⟩

/-- C5: for a user who is a party to a conversation's Application, sending
a USER message fails with the domain error 400 "Conversation declined"
(appending nothing — an error aborts before commit) when the Application
is DECLINED; otherwise (PENDING or ACCEPTED) exactly the new USER message
is appended to the conversation's log and the sender's own read cursor is
advanced to the new message's id. -/
theorem C5_send_message_declined_guard_and_cursor
    (db : DB) (u convId : Nat) (conv : Conversation) (app : Application) (text : String)
    (hc : db.convs.find? (fun c => decide (c.id = convId)) = some conv)
    (ha : db.apps.find? (fun a => decide (a.id = conv.application_id)) = some app)
    (hparty : app.student_user_id = u ∨ app.company_user_id = u) :
    (app.status = ApplicationStatus.DECLINED →
      send_message db u convId text = Except.error ⟨400, "Conversation declined"⟩) ∧
    (app.status ≠ ApplicationStatus.DECLINED →
      ∃ db' m, send_message db u convId text = Except.ok (db', m) ∧
        db'.msgs = db.msgs ++ [m] ∧
        m.conversation_id = convId ∧ m.type = MessageType.USER ∧
        m.sender_user_id = some u ∧ m.text = text ∧
        (participant_row db' convId u).map (fun r => r.last_read_message_id) =
          some (some m.id)) := by
  constructor
  · intro hdecl
    unfold send_message
    rw [hc]
    dsimp only
    rw [ha]
    dsimp only
    rw [if_neg (not_not_intro hparty), if_pos hdecl]
  · intro hndecl
    unfold send_message
    rw [hc]
    dsimp only
    rw [ha]
    dsimp only
    rw [if_neg (not_not_intro hparty), if_neg hndecl]
    obtain ⟨r0, hr0⟩ := ensure_participant_row_exists db convId u true
    have hr1 := ensure_participant_preserves (ensure_participant db convId u true) convId
      (if app.student_user_id = u then app.company_user_id else app.student_user_id)
      convId u true r0 hr0
    have hmsgs2 :
        (ensure_participant (ensure_participant db convId u true) convId
          (if app.student_user_id = u then app.company_user_id else app.student_user_id)
          true).msgs = db.msgs := by
      rw [ensure_participant_msgs, ensure_participant_msgs]
    refine ⟨_, _, rfl, ?_, rfl, rfl, rfl, rfl, ?_⟩
    · dsimp only
      rw [hmsgs2]
    · unfold participant_row
      dsimp only
      rw [set_cursor_find?]
      unfold participant_row at hr1
      rw [hr1]
      rfl

/-- Witness for C5 at `dbC2`: student 200 sends into conversation 5 whose
Application 4 is ACCEPTED. -/
theorem C5_send_message_declined_guard_and_cursor_witness :
    (ApplicationStatus.ACCEPTED = ApplicationStatus.DECLINED →
      send_message dbC2 200 5 "hi" = Except.error ⟨400, "Conversation declined"⟩) ∧
    (ApplicationStatus.ACCEPTED ≠ ApplicationStatus.DECLINED →
      ∃ db' m, send_message dbC2 200 5 "hi" = Except.ok (db', m) ∧
        db'.msgs = dbC2.msgs ++ [m] ∧
        m.conversation_id = 5 ∧ m.type = MessageType.USER ∧
        m.sender_user_id = some 200 ∧ m.text = "hi" ∧
        (participant_row db' 5 200).map (fun r => r.last_read_message_id) =
          some (some m.id)) :=
  C5_send_message_declined_guard_and_cursor dbC2 200 5 ⟨5, 4⟩
    ⟨4, 1, 200, 100, ApplicationStatus.ACCEPTED, 0, 0⟩ "hi" rfl rfl (Or.inl rfl)

/-- C6: a post is visible in the student feed exactly when it is active,
the student's ledger decision on it is not PASS, and no Application of
this student on this post has left PENDING.  The hypothesis is the
reachability invariant that every Application of the student has a
matching interaction row (decisions always upsert the ledger row before
the reconciliation engine may create an Application). -/
theorem C6_student_feed_characterization (db : DB) (s : Nat) (p : InternshipPost)
    (happrow : ∀ a ∈ db.apps, a.student_user_id = s → a.post_id = p.id →
      ∃ r ∈ db.spi, r.student_user_id = s ∧ r.post_id = p.id) :
    student_feed_visible db s p = true ↔
      (p.is_active = true ∧
       (∀ r ∈ db.spi, r.student_user_id = s → r.post_id = p.id →
         r.decision ≠ Decision.PASS) ∧
       (∀ a ∈ db.apps, a.student_user_id = s → a.post_id = p.id →
         a.status = ApplicationStatus.PENDING)) := by
  unfold student_feed_visible student_feed_excluded
  constructor
  · intro hv
    rw [Bool.and_eq_true] at hv
    obtain ⟨hact, hexcl⟩ := hv
    have hexcl' : ¬ (db.spi.any (fun r =>
        decide (r.student_user_id = s ∧ r.post_id = p.id) &&
        (decide (r.decision = Decision.PASS) ||
         db.apps.any (fun a =>
           decide (a.student_user_id = s ∧ a.status ≠ ApplicationStatus.PENDING ∧
             a.post_id = p.id)))) = true) := by
      simpa using hexcl
    refine ⟨hact, ?_, ?_⟩
    · intro r hr hrs hrp hpass
      exact hexcl' (List.any_eq_true.mpr ⟨r, hr, by simp [hrs, hrp, hpass]⟩)
    · intro a ha has hap
      by_contra hst
      obtain ⟨r, hrmem, hrs, hrp⟩ := happrow a ha has hap
      refine hexcl' (List.any_eq_true.mpr ⟨r, hrmem, ?_⟩)
      simp only [Bool.and_eq_true, decide_eq_true_eq, Bool.or_eq_true]
      exact ⟨⟨hrs, hrp⟩,
        Or.inr (List.any_eq_true.mpr ⟨a, ha, by simp [has, hap, hst]⟩)⟩
  · rintro ⟨hact, hnopass, hpend⟩
    rw [Bool.and_eq_true]
    refine ⟨hact, ?_⟩
    simp only [Bool.not_eq_true']
    rw [Bool.eq_false_iff]
    intro hE
    obtain ⟨r, hrmem, hpred⟩ := List.any_eq_true.mp hE
    simp only [Bool.and_eq_true, decide_eq_true_eq, Bool.or_eq_true] at hpred
    obtain ⟨⟨hrs, hrp⟩, hdisj⟩ := hpred
    rcases hdisj with hpass | hres
    · exact hnopass r hrmem hrs hrp hpass
    · obtain ⟨a, hamem, hconds⟩ := List.any_eq_true.mp hres
      have hconds' := of_decide_eq_true hconds
      exact hconds'.2.1 (hpend a hamem hconds'.1 hconds'.2.2)

/-- Witness for C6 at `dbC1` (no interactions: the post is visible and the
characterization's right-hand side holds vacuously). -/
theorem C6_student_feed_characterization_witness :
    student_feed_visible dbC1 200 ⟨1, 100, true, 0⟩ = true ↔
      ((⟨1, 100, true, 0⟩ : InternshipPost).is_active = true ∧
       (∀ r ∈ dbC1.spi, r.student_user_id = 200 → r.post_id = 1 →
         r.decision ≠ Decision.PASS) ∧
       (∀ a ∈ dbC1.apps, a.student_user_id = 200 → a.post_id = 1 →
         a.status = ApplicationStatus.PENDING)) :=
  C6_student_feed_characterization dbC1 200 ⟨1, 100, true, 0⟩ (by decide)

/-- C7: when company c has PASSed student card sp at time T1 (and that is
the company's unique ledger row on this card, card ids being unique), the
active card is visible in the company feed exactly when its freshness
timestamp (updatedAt, or createdAt if never updated) is strictly after
T1: it stays hidden while freshness ≤ T1 — indefinitely if the student
never updates — and re-enters the feed as soon as updatedAt > T1. -/
theorem C7_company_feed_pass_resurfacing (db : DB) (c : Nat) (sp : StudentProfilePost)
    (r : CompanyStudentPostInteraction) (t1 : Nat)
    (hr : r ∈ db.cspi) (hrc : r.company_user_id = c) (hrsp : r.student_post_id = sp.id)
    (hdec : r.decision = Decision.PASS) (ht : r.decided_at = some t1)
    (hmem : sp ∈ db.student_posts)
    (huniqrow : ∀ r' ∈ db.cspi, r'.company_user_id = c → r'.student_post_id = sp.id → r' = r)
    (huniqcard : ∀ sp2 ∈ db.student_posts, sp2.id = sp.id → sp2 = sp)
    (hact : sp.is_active = true) :
    (company_feed_visible db c sp = true ↔ t1 < card_freshness sp) := by
  have hhid : (company_feed_hidden db c sp = true) ↔ card_freshness sp ≤ t1 := by
    unfold company_feed_hidden
    rw [List.any_eq_true]
    constructor
    · rintro ⟨r', hr'mem, hpred⟩
      simp only [Bool.and_eq_true, decide_eq_true_eq, Bool.or_eq_true] at hpred
      obtain ⟨⟨h1, h2⟩, hdisj⟩ := hpred
      have hre : r' = r := huniqrow r' hr'mem h1 h2
      subst hre
      rcases hdisj with ⟨hpassb, hany⟩ | ⟨hne, _⟩
      · rw [List.any_eq_true] at hany
        obtain ⟨sp2, hsp2mem, hsp2⟩ := hany
        simp only [Bool.and_eq_true, decide_eq_true_eq] at hsp2
        obtain ⟨hid2, hcmp⟩ := hsp2
        have hspe : sp2 = sp := huniqcard sp2 hsp2mem (hid2.trans hrsp)
        subst hspe
        rw [ht] at hcmp
        exact of_decide_eq_true hcmp
      · exact absurd hdec hne.2
    · intro hfresh
      refine ⟨r, hr, ?_⟩
      simp only [Bool.and_eq_true, decide_eq_true_eq, Bool.or_eq_true]
      refine ⟨⟨hrc, hrsp⟩, Or.inl ⟨hdec, ?_⟩⟩
      rw [List.any_eq_true]
      refine ⟨sp, hmem, ?_⟩
      rw [ht]
      simp [hrsp, hfresh]
  unfold company_feed_visible
  rw [hact, Bool.true_and, Bool.not_eq_true']
  rw [Bool.eq_false_iff]
  constructor
  · intro hne
    rcases Nat.lt_or_ge t1 (card_freshness sp) with h | h
    · exact h
    · exact absurd (hhid.mpr h) hne
  · intro hlt hh
    have := hhid.mp hh
    omega

/-- Witness for C7 at `dbC2`: company 100 PASSed card 2 at time 1; the
card was never updated (freshness 0 ≤ 1), so it is hidden. -/
theorem C7_company_feed_pass_resurfacing_witness :
    company_feed_visible dbC2 100 ⟨2, 200, true, 0, none⟩ = true ↔
      1 < card_freshness ⟨2, 200, true, 0, none⟩ :=
  C7_company_feed_pass_resurfacing dbC2 100 ⟨2, 200, true, 0, none⟩
    ⟨3, 100, 2, false, Decision.PASS, none, some 1⟩ 1
    (by decide) rfl rfl rfl rfl (by decide) (by decide) (by decide) rfl

/-- C8: for a party to a conversation, mark-read with no explicit
lastReadMessageId sets the caller's cursor to the conversation's current
latest message id (a no-op on the cursor when there are no messages), and
afterwards the caller's true unread count is exactly 0; an explicit
message id that does not belong to the conversation fails with 400
InvalidArgument. -/
theorem C8_mark_read_to_latest_and_validation
    (db : DB) (u convId : Nat) (conv : Conversation) (app : Application)
    (hc : db.convs.find? (fun c => decide (c.id = convId)) = some conv)
    (ha : db.apps.find? (fun a => decide (a.id = conv.application_id)) = some app)
    (hparty : app.student_user_id = u ∨ app.company_user_id = u) :
    (∃ db' resp, mark_conversation_read db u convId none = Except.ok (db', resp) ∧
      resp.unreadCount = 0 ∧
      db'.msgs = db.msgs ∧
      (∃ r, participant_row db' convId u = some r ∧
        unread_count db' convId u r.last_read_message_id = 0) ∧
      (∀ k, max_message_id db convId = some k →
        (participant_row db' convId u).map (fun r => r.last_read_message_id) =
          some (some k))) ∧
    (∀ reqId, (∀ m ∈ db.msgs, m.id = reqId → m.conversation_id ≠ convId) →
      mark_conversation_read db u convId (some reqId) =
        Except.error ⟨400, "Invalid lastReadMessageId"⟩) := by
  have hacc : can_access_conversation db convId u = true := by
    unfold can_access_conversation
    rw [hc]
    dsimp only
    rw [ha]
    dsimp only
    simp [hparty]
  have hmsgs1 : (ensure_participant db convId u false).msgs = db.msgs :=
    ensure_participant_msgs db convId u false
  constructor
  · unfold mark_conversation_read
    rw [hacc, if_neg (by simp)]
    dsimp only
    have hmax1 : max_message_id (ensure_participant db convId u false) convId =
        max_message_id db convId := by
      unfold max_message_id
      rw [hmsgs1]
    rw [hmax1]
    obtain ⟨r0, hr0⟩ := ensure_participant_row_exists db convId u false
    cases hmax : max_message_id db convId with
    | none =>
      refine ⟨_, _, rfl, rfl, hmsgs1, ⟨r0, hr0, ?_⟩, fun k hk => by cases hk⟩
      exact unread_count_zero_of_empty _ convId u _
        (by rw [hmsgs1]; exact max_message_id_none db convId hmax)
    | some k =>
      have hfind2 : participant_row
          ({ ensure_participant db convId u false with
            parts := set_participant_cursor_rows
              (ensure_participant db convId u false).parts convId u k
              (ensure_participant db convId u false).now }) convId u =
          some ({ r0 with
            last_read_message_id := some k
            updated_at := (ensure_participant db convId u false).now }) := by
        unfold participant_row
        dsimp only
        rw [set_cursor_find?]
        unfold participant_row at hr0
        rw [hr0]
        rfl
      refine ⟨_, _, rfl, rfl, hmsgs1, ⟨_, hfind2, ?_⟩, fun k' hk' => ?_⟩
      · have hcg : unread_count
            { ensure_participant db convId u false with
              parts := set_participant_cursor_rows
                (ensure_participant db convId u false).parts convId u k
                (ensure_participant db convId u false).now } convId u (some k) =
            unread_count db convId u (some k) :=
          unread_count_congr convId u (some k) hmsgs1
        rw [hcg]
        exact unread_count_zero_of_bound db convId u k (max_message_id_bound db convId k hmax)
      · injection hk' with hk''
        subst hk''
        rw [hfind2]
        rfl
  · intro reqId hnotin
    unfold mark_conversation_read
    rw [hacc, if_neg (by simp)]
    dsimp only
    cases hf : (ensure_participant db convId u false).msgs.find?
        (fun m => decide (m.id = reqId)) with
    | none => rfl
    | some m =>
      have hm1 := List.find?_some hf
      have hm2 := List.mem_of_find?_eq_some hf
      rw [hmsgs1] at hm2
      have hmid : m.id = reqId := by simpa using hm1
      have hne : m.conversation_id ≠ convId := hnotin m hm2 hmid
      dsimp only
      rw [if_pos hne]

/-- Witness for C8 at `dbC2`: company-side conversation 5 of Application 4
with its one seed message (id 6); student 200 is a party. -/
theorem C8_mark_read_to_latest_and_validation_witness :
    (∃ db' resp, mark_conversation_read dbC2 200 5 none = Except.ok (db', resp) ∧
      resp.unreadCount = 0 ∧
      db'.msgs = dbC2.msgs ∧
      (∃ r, participant_row db' 5 200 = some r ∧
        unread_count db' 5 200 r.last_read_message_id = 0) ∧
      (∀ k, max_message_id dbC2 5 = some k →
        (participant_row db' 5 200).map (fun r => r.last_read_message_id) =
          some (some k))) ∧
    (∀ reqId, (∀ m ∈ dbC2.msgs, m.id = reqId → m.conversation_id ≠ 5) →
      mark_conversation_read dbC2 200 5 (some reqId) =
        Except.error ⟨400, "Invalid lastReadMessageId"⟩) :=
  C8_mark_read_to_latest_and_validation dbC2 200 5 ⟨5, 4⟩
    ⟨4, 1, 200, 100, ApplicationStatus.ACCEPTED, 0, 0⟩ rfl rfl (Or.inl rfl)

/-- C10: the mark-read response always reports unreadCount = 0 regardless
of the cursor actually set; in particular, supplying an explicit
lastReadMessageId older than a counterpart message moves the cursor to
that older id (even backwards over an existing cursor) while the user's
true unread count straight after the call is strictly positive —
contradicting the reported 0. -/
theorem C10_mark_read_always_zero_and_backwards
    (db : DB) (u convId : Nat) (conv : Conversation) (app : Application)
    (hc : db.convs.find? (fun c => decide (c.id = convId)) = some conv)
    (ha : db.apps.find? (fun a => decide (a.id = conv.application_id)) = some app)
    (hparty : app.student_user_id = u ∨ app.company_user_id = u) :
    (∀ (lastRead : Option Nat) (pr : DB × MarkConversationReadResponse),
      mark_conversation_read db u convId lastRead = Except.ok pr →
      pr.2.unreadCount = 0) ∧
    (∀ reqId (m0 m1 : Message) (s' : Nat),
      db.msgs.find? (fun m => decide (m.id = reqId)) = some m0 →
      m0.conversation_id = convId →
      m1 ∈ db.msgs → m1.conversation_id = convId →
      m1.sender_user_id = some s' → s' ≠ u → reqId < m1.id →
      ∃ db' resp,
        mark_conversation_read db u convId (some reqId) = Except.ok (db', resp) ∧
        resp.unreadCount = 0 ∧
        (participant_row db' convId u).map (fun r => r.last_read_message_id) =
          some (some reqId) ∧
        0 < unread_count db' convId u (some reqId)) := by
  have hmsgs1 : (ensure_participant db convId u false).msgs = db.msgs :=
    ensure_participant_msgs db convId u false
  constructor
  · -- the endpoint literally returns unreadCount = 0 on every success
    intro lastRead pr h
    unfold mark_conversation_read at h
    by_cases hacc : can_access_conversation db convId u = false
    · rw [if_pos hacc] at h
      cases h
    · rw [if_neg hacc] at h
      dsimp only at h
      cases lastRead with
      | none =>
        dsimp only at h
        cases hm : max_message_id (ensure_participant db convId u false) convId with
        | none =>
          rw [hm] at h
          dsimp only at h
          injection h with h'
          rw [← h']
        | some k =>
          rw [hm] at h
          dsimp only at h
          injection h with h'
          rw [← h']
      | some reqId =>
        dsimp only at h
        cases hf : (ensure_participant db convId u false).msgs.find?
            (fun m => decide (m.id = reqId)) with
        | none =>
          rw [hf] at h
          dsimp only at h
          cases h
        | some m =>
          rw [hf] at h
          dsimp only at h
          by_cases hne : m.conversation_id ≠ convId
          · rw [if_pos hne] at h
            cases h
          · rw [if_neg hne] at h
            dsimp only at h
            injection h with h'
            rw [← h']
  · intro reqId m0 m1 s' hfindm hm0conv hm1 hm1conv hm1sender hs' hm1gt
    have hacc : can_access_conversation db convId u = true := by
      unfold can_access_conversation
      rw [hc]
      dsimp only
      rw [ha]
      dsimp only
      simp [hparty]
    have hm0id : m0.id = reqId := by simpa using List.find?_some hfindm
    unfold mark_conversation_read
    rw [hacc, if_neg (by simp)]
    dsimp only
    have hfindm1 : (ensure_participant db convId u false).msgs.find?
        (fun m => decide (m.id = reqId)) = some m0 := by
      rw [hmsgs1]; exact hfindm
    rw [hfindm1]
    dsimp only
    rw [if_neg (not_not_intro hm0conv)]
    obtain ⟨r0, hr0⟩ := ensure_participant_row_exists db convId u false
    have hfind2 : participant_row
        ({ ensure_participant db convId u false with
          parts := set_participant_cursor_rows
            (ensure_participant db convId u false).parts convId u m0.id
            (ensure_participant db convId u false).now }) convId u =
        some ({ r0 with
          last_read_message_id := some m0.id
          updated_at := (ensure_participant db convId u false).now }) := by
      unfold participant_row
      dsimp only
      rw [set_cursor_find?]
      unfold participant_row at hr0
      rw [hr0]
      rfl
    refine ⟨_, _, rfl, rfl, ?_, ?_⟩
    · rw [hfind2]
      simp [hm0id]
    · have hcg : unread_count
          ({ ensure_participant db convId u false with
            parts := set_participant_cursor_rows
              (ensure_participant db convId u false).parts convId u m0.id
              (ensure_participant db convId u false).now }) convId u (some reqId) =
          unread_count db convId u (some reqId) :=
        unread_count_congr convId u (some reqId) hmsgs1
      rw [hcg]
      unfold unread_count
      have hmem : m1 ∈ db.msgs.filter (fun m =>
          decide (m.conversation_id = convId) &&
          decide ((match (some reqId : Option Nat) with
            | none => 0
            | some x => x) < m.id) &&
          (match m.sender_user_id with
           | none => false
           | some s => decide (s ≠ u))) := by
        refine List.mem_filter.mpr ⟨hm1, ?_⟩
        simp [hm1conv, hm1sender, hm1gt, hs']
      exact List.length_pos.mpr (List.ne_nil_of_mem hmem)

/-- Witness for C10 at `dbC10`: student 200 marks conversation 5 read at
the old company message id 7 while company message 8 is newer — the
response still claims 0 unread although one message is truly unread. -/
theorem C10_mark_read_always_zero_and_backwards_witness :
    (∀ (lastRead : Option Nat) (pr : DB × MarkConversationReadResponse),
      mark_conversation_read dbC10 200 5 lastRead = Except.ok pr →
      pr.2.unreadCount = 0) ∧
    (∀ reqId (m0 m1 : Message) (s' : Nat),
      dbC10.msgs.find? (fun m => decide (m.id = reqId)) = some m0 →
      m0.conversation_id = 5 →
      m1 ∈ dbC10.msgs → m1.conversation_id = 5 →
      m1.sender_user_id = some s' → s' ≠ 200 → reqId < m1.id →
      ∃ db' resp,
        mark_conversation_read dbC10 200 5 (some reqId) = Except.ok (db', resp) ∧
        resp.unreadCount = 0 ∧
        (participant_row db' 5 200).map (fun r => r.last_read_message_id) =
          some (some reqId) ∧
        0 < unread_count db' 5 200 (some reqId)) :=
  C10_mark_read_always_zero_and_backwards dbC10 200 5 ⟨5, 4⟩
    ⟨4, 1, 200, 100, ApplicationStatus.ACCEPTED, 0, 0⟩ rfl rfl (Or.inl rfl)

/-- C9 counterexample: post 1 of `dbC9` exists but is inactive
(soft-deleted); the claim requires setSaved to fail with NotFound, yet
`set_saved_post_for_student` succeeds and writes the save flag into the
ledger — the handler checks only existence, not `is_active`. -/
theorem C9_setsaved_inactive_counterexample :
    (dbC9.posts.find? (fun p => decide (p.id = 1))).map (fun p => p.is_active) =
      some false ∧
    ∃ db', set_saved_post_for_student dbC9 200 UserRole.STUDENT 1 true = Except.ok db' ∧
      ∃ r ∈ db'.spi, r.student_user_id = 200 ∧ r.post_id = 1 ∧ r.saved = true :=
  ⟨by decide, _, rfl, by decide⟩

/-- C9 (amended): the decision-ledger decision writes validate both
existence and the target's isActive flag (missing or inactive → 404
NotFound), but the setSaved write validates only existence: a missing
post is 404, while an inactive post is accepted and the save flag is
written. -/
theorem C9_amended_validation
    (db : DB) (s pid spid : Nat) (d : ReqDecision) (sv : Bool) :
    ((db.posts.find? (fun p => decide (p.id = pid)) = none ∨
      (∃ p, db.posts.find? (fun p2 => decide (p2.id = pid)) = some p ∧
        p.is_active = false)) →
      student_decision_post db s UserRole.STUDENT pid d =
        Except.error ⟨404, "Post not found"⟩) ∧
    ((db.student_posts.find? (fun sp => decide (sp.id = spid)) = none ∨
      (∃ sp, db.student_posts.find? (fun sp2 => decide (sp2.id = spid)) = some sp ∧
        sp.is_active = false)) →
      company_decision_student_post db s UserRole.COMPANY spid d =
        Except.error ⟨404, "Student post not found"⟩) ∧
    (db.posts.find? (fun p => decide (p.id = pid)) = none →
      set_saved_post_for_student db s UserRole.STUDENT pid sv =
        Except.error ⟨404, "Post not found"⟩) ∧
    (∀ p, db.posts.find? (fun p2 => decide (p2.id = pid)) = some p →
      ∃ db', set_saved_post_for_student db s UserRole.STUDENT pid sv = Except.ok db') := by
  refine ⟨?_, ?_, ?_, ?_⟩
  · intro h
    unfold student_decision_post
    rw [if_neg (by simp)]
    rcases h with h | ⟨p, hp, hact⟩
    · rw [h]
    · rw [hp]
      dsimp only
      rw [if_pos hact]
  · intro h
    unfold company_decision_student_post
    rw [if_neg (by simp)]
    rcases h with h | ⟨sp, hsp, hact⟩
    · rw [h]
    · rw [hsp]
      dsimp only
      rw [if_pos hact]
  · intro h
    unfold set_saved_post_for_student
    rw [if_neg (by simp), h]
  · intro p hp
    unfold set_saved_post_for_student
    rw [if_neg (by simp), hp]
    exact ⟨_, rfl⟩

/-- Witness for the amended C9 at `dbC9`: the decision write on the
inactive post 1 fails with 404, while setSaved on the very same inactive
post succeeds. -/
theorem C9_amended_validation_witness :
    student_decision_post dbC9 200 UserRole.STUDENT 1 ReqDecision.LIKE =
      Except.error ⟨404, "Post not found"⟩ ∧
    ∃ db', set_saved_post_for_student dbC9 200 UserRole.STUDENT 1 true = Except.ok db' :=
  ⟨(C9_amended_validation dbC9 200 1 1 ReqDecision.LIKE true).1
      (Or.inr ⟨⟨1, 100, false, 0⟩, rfl, rfl⟩),
    (C9_amended_validation dbC9 200 1 1 ReqDecision.LIKE true).2.2.2 ⟨1, 100, false, 0⟩ rfl⟩

/-- Witness for the amended C2 at the concrete database `dbC2`. -/
theorem C2_company_prepass_decline_amended_witness :
    companyHasPassedStudent dbC2 100 200 = true ∧
    ∃ db', student_decision_post dbC2 200 UserRole.STUDENT 1 ReqDecision.PASS = Except.ok db' ∧
      (dbC2.apps.find? (fun a => decide (a.post_id = (1 : Nat) ∧ a.student_user_id = 200)) =
          none →
        ∃ a, appsFor db' 1 200 = [a] ∧ a.status = ApplicationStatus.DECLINED) ∧
      (∀ a0,
        dbC2.apps.find? (fun a => decide (a.post_id = (1 : Nat) ∧ a.student_user_id = 200)) =
          some a0 →
        db'.apps = dbC2.apps) :=
  ⟨rfl, C2_company_prepass_decline_amended dbC2 200 1 ⟨1, 100, true, 0⟩ ReqDecision.PASS
    rfl rfl rfl⟩

end Unintend
